import Mathlib

/-!
# Build creation handler of drone (`handler/api/repos/builds/create.go`)

A shallow embedding of `HandleCreate`: the handler is a function from its four
collaborators and a request to a `Run`, which records the collaborator calls in
program order, the Event Record (`core.Hook`) that was constructed, if any, and
the response that was rendered.
-/

set_option autoImplicit false

namespace Drone

/-! ## Strings and maps of the Go runtime -/

/-- Go `error` values, identified with their message. -/
abbrev Error := String

/-- Go `strings.HasPrefix(s, pfx)`. -/
def HasPrefix (s pfx : String) : Bool :=
  pfx.data.isPrefixOf s.data

/-- Go `strings.TrimSuffix(s, suffix)`: `s` without the trailing `suffix`, or `s`
itself when it does not end in `suffix`. -/
def TrimSuffix (s suffix : String) : String :=
  if suffix.data.isSuffixOf s.data then
    String.mk (s.data.take (s.data.length - suffix.data.length))
  else s

/-- Modelled from the spec: `scm.ExpandRef` comes from the go-scm library, which is
not part of the sources at hand. The spec describes it as the expansion of a short
name under a reference namespace, a name that is already fully qualified (begins
with `refs/`) passing through unchanged. -/
def ExpandRef (name pfx : String) : String :=
  let pfx := TrimSuffix pfx "/"
  if HasPrefix name "refs/" then name else pfx ++ "/" ++ name

/-- Go `url.Values`, a `map[string][]string`, as the list of its entries in the
order in which `range` visits them. A map has no two entries with the same key. -/
abbrev Values := List (String × List String)

/-- Go `map[string]string`, as the list of its entries. -/
abbrev StringMap := List (String × String)

/-- The keys of a map are pairwise distinct. -/
def Values.WellFormed (v : Values) : Prop :=
  (v.map Prod.fst).Nodup

instance (v : Values) : Decidable (Values.WellFormed v) :=
  inferInstanceAs (Decidable (v.map Prod.fst).Nodup)

/-- Go map index `v[key]` on `url.Values`: the nil slice when the key is absent. -/
def Values.index (v : Values) (key : String) : List String :=
  (v.lookup key).getD []

/-- Go map index with presence flag, `value, ok := m[key]`. -/
def StringMap.index (m : StringMap) (key : String) : Option String :=
  m.lookup key

/-- Go map assignment `m[key] = value`: overwrite the entry of `key`, or add one. -/
def StringMap.assign : StringMap → String → String → StringMap
  | [], key, value => [(key, value)]
  | (k, v) :: rest, key, value =>
    if k = key then (key, value) :: rest
    else (k, v) :: StringMap.assign rest key value

/-! ## Types of package `core` read or written by the handler -/

/-- Modelled from the spec: `core.User` is declared outside the sources at hand;
the handler reads `Login` only and passes the owner on to the commit service. -/
structure User where
  ID : Int
  Login : String
  deriving DecidableEq, Repr

/-- Modelled from the spec: `core.Repository` is declared outside the sources at
hand: slug, owning user id, default branch and configuration path. -/
structure Repository where
  ID : Int
  UserID : Int
  Namespace : String
  Name : String
  Slug : String
  Branch : String
  Config : String
  deriving DecidableEq, Repr

/-- Modelled from the spec: `core.Committer` is declared outside the sources at
hand: the author identity of a commit with its timestamp. -/
structure Committer where
  Name : String
  Email : String
  Date : Int
  Login : String
  Avatar : String
  deriving DecidableEq, Repr

/-- Modelled from the spec: `core.Commit` is declared outside the sources at hand:
a resolved commit, consumed by value. -/
structure Commit where
  Sha : String
  Ref : String
  Message : String
  Author : Committer
  Link : String
  deriving DecidableEq, Repr

/-- The Event Record `core.Hook`, with the fields that `HandleCreate` sets
(create.go lines 109 to 127). -/
structure Hook where
  Trigger : String
  Event : String
  Link : String
  Timestamp : Int
  Title : String
  Message : String
  Before : String
  After : String
  Ref : String
  Source : String
  Target : String
  Author : String
  AuthorName : String
  AuthorEmail : String
  AuthorAvatar : String
  Sender : String
  Params : StringMap
  deriving DecidableEq, Repr

/-- Modelled from the spec: `core.Build` is declared outside the sources at hand;
it is the value that the scheduler returns and that the handler renders. -/
structure Build where
  ID : Int
  Number : Int
  deriving DecidableEq, Repr

/-- Modelled from the spec: `core.EventCustom`, the constant "custom" event kind. -/
def EventCustom : String := "custom"

/-! ## Collaborators -/

/-- The request context `r.Context()`, which the handler passes to every
collaborator: of its values, the user that the authentication layer attached (a nil
pointer when there is none). -/
structure Context where
  User : Option User
  deriving DecidableEq, Repr

/-- The user of a context, `request.UserFrom(ctx)`: nil when there is none. -/
def UserFrom (ctx : Context) : Option User :=
  ctx.User

/-- The method of `core.UserStore` used by the handler. -/
structure UserStore where
  Find : Context → Int → Except Error User

/-- The method of `core.RepositoryStore` used by the handler. -/
structure RepositoryStore where
  FindName : Context → String → String → Except Error Repository

/-- The methods of `core.CommitService` used by the handler. -/
structure CommitService where
  Find : Context → User → String → String → Except Error Commit
  FindRef : Context → User → String → String → Except Error Commit

/-- The `core.Triggerer` interface. -/
structure Triggerer where
  Trigger : Context → Repository → Hook → Except Error Build

/-- A call made on a collaborator, with its arguments (the context apart). -/
inductive Call where
  | ReposFindName (nspace name : String)
  | UsersFind (id : Int)
  | CommitsFind (owner : User) (slug sha : String)
  | CommitsFindRef (owner : User) (slug ref : String)
  | Trigger (repo : Repository) (hook : Hook)
  deriving DecidableEq, Repr

/-- The call is one of the two commit lookups. -/
def Call.isCommitLookup : Call → Bool
  | .CommitsFind _ _ _ => true
  | .CommitsFindRef _ _ _ => true
  | _ => false

/-- The call is `triggerer.Trigger`. -/
def Call.isTrigger : Call → Bool
  | .Trigger _ _ => true
  | _ => false

/-! ## Requests and responses -/

/-- The parts of `*http.Request` that the handler reads: the chi route parameters,
the parameters of an urlencoded body, the URL query (`r.URL.Query()`), the user
attached to the context of the request (a nil pointer when there is none), and the
values of a multipart body. -/
structure Request where
  URLParams : List (String × String)
  PostForm : Values
  Query : Values
  User : Option User
  MultipartForm : Values := []

/-- The context of a request, `r.Context()`. -/
def Request.Context (r : Request) : Context :=
  { User := r.User }

/-- The route parameter `chi.URLParam(r, key)`: empty when the route has none. -/
def Request.URLParam (r : Request) (key : String) : String :=
  (r.URLParams.lookup key).getD ""

/-- Go `r.FormValue(key)`: the first value of `key` in `r.Form`, which holds the
parameters of an urlencoded body, then the URL query values, then the values of a
multipart body; the empty string when there is none. -/
def Request.FormValue (r : Request) (key : String) : String :=
  match Values.index r.PostForm key ++ Values.index r.Query key
      ++ Values.index r.MultipartForm key with
  | v :: _ => v
  | [] => ""

/-- What the handler does to the response writer. `NotFound`, `InternalError` and
`JSON` are the helpers of package `render` (status 404, 500 and the given status);
`Panic` is a run that dereferences a nil pointer and renders nothing. -/
inductive Response where
  | NotFound (err : Error)
  | InternalError (err : Error)
  | JSON (v : Build) (status : Nat)
  | Panic
  deriving DecidableEq, Repr

/-- The HTTP status of a rendered response. -/
def Response.status : Response → Option Nat
  | .NotFound _ => some 404
  | .InternalError _ => some 500
  | .JSON _ status => some status
  | .Panic => none

/-- One execution of the handler: the collaborator calls in program order, the
Event Record constructed (none when the run ends before line 109), the response. -/
structure Run where
  calls : List Call
  hook : Option Hook
  response : Response
  deriving DecidableEq, Repr

/-! ## The handler -/

/-- The loop of create.go lines 129 to 139 over `r.URL.Query()`, started on the
empty map of line 126. -/
def collectParams (query : Values) : StringMap :=
  query.foldl (fun params entry =>
    let key := entry.1
    let value := entry.2
    if key = "access_token" ∨ key = "commit" ∨ key = "branch" then params
    else if value.length = 0 then params
    else StringMap.assign params key (value.headD "")) []

/-- The handler `HandleCreate` of create.go lines 30 to 148. -/
def HandleCreate (users : UserStore) (repos : RepositoryStore) (commits : CommitService)
    (triggerer : Triggerer) (r : Request) : Run :=
  let ctx := r.Context
  let nspace := r.URLParam "owner"
  let name := r.URLParam "name"
  let sha := r.FormValue "commit"
  let before := r.FormValue "before"
  let after := r.FormValue "after"
  let branch := r.FormValue "branch"
  let sourceBranch := r.FormValue "source_branch"
  let targetBranch := r.FormValue "target_branch"
  let ref := r.FormValue "ref"
  let event := r.FormValue "event"
  let trigger := r.FormValue "trigger"
  let link := r.FormValue "link"
  let title := r.FormValue "title"
  let user := UserFrom ctx
  let c1 := Call.ReposFindName nspace name
  match repos.FindName ctx nspace name with
  | .error err => ⟨[c1], none, .NotFound err⟩
  | .ok repo =>
  let c2 := Call.UsersFind repo.UserID
  match users.Find ctx repo.UserID with
  | .error err => ⟨[c1, c2], none, .NotFound err⟩
  | .ok owner =>
  let branch := if branch = "" then repo.Branch else branch
  let sourceBranch := if sourceBranch = "" then branch else sourceBranch
  let targetBranch := if targetBranch = "" then branch else targetBranch
  let ref := if ref = "" then ExpandRef branch "refs/heads" else ref
  let c3 := if sha ≠ "" then Call.CommitsFind owner repo.Slug sha
    else Call.CommitsFindRef owner repo.Slug ref
  match (if sha ≠ "" then commits.Find ctx owner repo.Slug sha
    else commits.FindRef ctx owner repo.Slug ref) with
  | .error err => ⟨[c1, c2, c3], none, .NotFound err⟩
  | .ok commit =>
  let event := if event = "" then EventCustom else event
  match (if trigger = "" then user.map User.Login else some trigger) with
  | none => ⟨[c1, c2, c3], none, .Panic⟩
  | some trigger =>
  let link := if link = "" then commit.Link else link
  let before := if before = "" then commit.Sha else before
  let after := if after = "" then commit.Sha else after
  let hook : Hook :=
    { Trigger := trigger
      Event := event
      Link := link
      Timestamp := commit.Author.Date
      Title := title
      Message := commit.Message
      Before := before
      After := after
      Ref := ref
      Source := sourceBranch
      Target := targetBranch
      Author := commit.Author.Login
      AuthorName := commit.Author.Name
      AuthorEmail := commit.Author.Email
      AuthorAvatar := commit.Author.Avatar
      Sender := trigger
      Params := collectParams r.Query }
  let c4 := Call.Trigger repo hook
  match triggerer.Trigger r.Context repo hook with
  | .error err => ⟨[c1, c2, c3, c4], some hook, .InternalError err⟩
  | .ok result => ⟨[c1, c2, c3, c4], some hook, .JSON result 200⟩

/-! ## Names for the intermediate values of a run

These abbreviations name the values that `HandleCreate` computes on the way, so that
the lemmas on its control flow can be stated; each unfolds to the expression of the
handler. -/

/-- The call on the repository store, line 55. -/
abbrev repoCall (r : Request) : Call :=
  Call.ReposFindName (r.URLParam "owner") (r.URLParam "name")

/-- The result of the repository lookup, line 55. -/
abbrev repoResult (repos : RepositoryStore) (r : Request) : Except Error Repository :=
  repos.FindName r.Context (r.URLParam "owner") (r.URLParam "name")

/-- The value of `branch` after line 71. -/
abbrev branchOf (r : Request) (repo : Repository) : String :=
  if r.FormValue "branch" = "" then repo.Branch else r.FormValue "branch"

/-- The value of `ref` after line 81. -/
abbrev refOf (r : Request) (repo : Repository) : String :=
  if r.FormValue "ref" = "" then ExpandRef (branchOf r repo) "refs/heads"
  else r.FormValue "ref"

/-- The call on the commit service, lines 84 to 88. -/
def commitCall (r : Request) (repo : Repository) (owner : User) : Call :=
  if r.FormValue "commit" ≠ "" then Call.CommitsFind owner repo.Slug (r.FormValue "commit")
  else Call.CommitsFindRef owner repo.Slug (refOf r repo)

/-- The result of the commit lookup, lines 84 to 88. -/
abbrev commitResult (commits : CommitService) (r : Request) (repo : Repository)
    (owner : User) : Except Error Commit :=
  if r.FormValue "commit" ≠ "" then commits.Find r.Context owner repo.Slug (r.FormValue "commit")
  else commits.FindRef r.Context owner repo.Slug (refOf r repo)

/-- The value of `trigger` after line 98; none when `user` is nil where it is read. -/
abbrev triggerOf (r : Request) : Option String :=
  if r.FormValue "trigger" = "" then (UserFrom r.Context).map User.Login
  else some (r.FormValue "trigger")

/-- The Event Record of lines 109 to 139. -/
abbrev hookOf (r : Request) (repo : Repository) (commit : Commit) (trigger : String) : Hook :=
  { Trigger := trigger
    Event := if r.FormValue "event" = "" then EventCustom else r.FormValue "event"
    Link := if r.FormValue "link" = "" then commit.Link else r.FormValue "link"
    Timestamp := commit.Author.Date
    Title := r.FormValue "title"
    Message := commit.Message
    Before := if r.FormValue "before" = "" then commit.Sha else r.FormValue "before"
    After := if r.FormValue "after" = "" then commit.Sha else r.FormValue "after"
    Ref := refOf r repo
    Source := if r.FormValue "source_branch" = "" then branchOf r repo
      else r.FormValue "source_branch"
    Target := if r.FormValue "target_branch" = "" then branchOf r repo
      else r.FormValue "target_branch"
    Author := commit.Author.Login
    AuthorName := commit.Author.Name
    AuthorEmail := commit.Author.Email
    AuthorAvatar := commit.Author.Avatar
    Sender := trigger
    Params := collectParams r.Query }

/-- One iteration of the loop of lines 129 to 139. -/
abbrev paramsStep (params : StringMap) (entry : String × List String) : StringMap :=
  if entry.1 = "access_token" ∨ entry.1 = "commit" ∨ entry.1 = "branch" then params
  else if entry.2.length = 0 then params
  else StringMap.assign params entry.1 (entry.2.headD "")

/-- The response of lines 141 to 146. -/
abbrev renderResult (result : Except Error Build) : Response :=
  match result with
  | .error err => .InternalError err
  | .ok build => .JSON build 200

/-- The three lookups of lines 55 to 88 succeed, with these results. -/
def LookupsSucceed (users : UserStore) (repos : RepositoryStore) (commits : CommitService)
    (r : Request) (repo : Repository) (owner : User) (commit : Commit) : Prop :=
  repos.FindName r.Context (r.URLParam "owner") (r.URLParam "name") = .ok repo ∧
  users.Find r.Context repo.UserID = .ok owner ∧
  (if r.FormValue "commit" ≠ "" then commits.Find r.Context owner repo.Slug (r.FormValue "commit")
    else commits.FindRef r.Context owner repo.Slug
      (if r.FormValue "ref" = "" then
        ExpandRef (if r.FormValue "branch" = "" then repo.Branch else r.FormValue "branch")
          "refs/heads"
       else r.FormValue "ref")) = .ok commit

/-- The repository lookup fails, or it succeeds and the owner lookup fails, or both
succeed and the commit lookup of lines 84 to 88 fails. -/
def LookupFails (users : UserStore) (repos : RepositoryStore) (commits : CommitService)
    (r : Request) : Prop :=
  (∃ err, repos.FindName r.Context (r.URLParam "owner") (r.URLParam "name") = .error err) ∨
  (∃ repo err, repos.FindName r.Context (r.URLParam "owner") (r.URLParam "name") = .ok repo ∧
    users.Find r.Context repo.UserID = .error err) ∨
  (∃ repo owner err, repos.FindName r.Context (r.URLParam "owner") (r.URLParam "name") = .ok repo ∧
    users.Find r.Context repo.UserID = .ok owner ∧
    (if r.FormValue "commit" ≠ "" then commits.Find r.Context owner repo.Slug (r.FormValue "commit")
      else commits.FindRef r.Context owner repo.Slug
        (if r.FormValue "ref" = "" then
          ExpandRef (if r.FormValue "branch" = "" then repo.Branch else r.FormValue "branch")
            "refs/heads"
         else r.FormValue "ref")) = .error err)

/-! ## Fixtures used to run the handler on concrete requests -/

/-- The account that owns the fixture repository. -/
def mockUser : User := { ID := 1, Login := "octocat" }

/-- A repository whose default branch is `master`. -/
def mockRepo : Repository :=
  { ID := 1, UserID := 1, Namespace := "octocat", Name := "hello-world",
    Slug := "octocat/hello-world", Branch := "master", Config := ".drone.yml" }

/-- The head commit of the fixture repository. -/
def mockCommit : Commit :=
  { Sha := "cce10d5c4760d1d6ede99db850ab7e77efe15579"
    Ref := "refs/heads/master"
    Message := "updated README.md"
    Author :=
      { Name := "The Octocat", Email := "octocat@github.com", Date := 1532303087,
        Login := "octocat", Avatar := "https://avatars2.githubusercontent.com/u/251370" }
    Link := "https://github.com/octocat/hello-world/commit/cce10d5c" }

/-- A user store that knows `mockUser` only. -/
def mockUsers : UserStore :=
  { Find := fun _ id =>
      if id = 1 then .ok mockUser else .error "sql: no rows in result set" }

/-- A repository store that knows `mockRepo` only. -/
def mockRepos : RepositoryStore :=
  { FindName := fun _ nspace name =>
      if nspace = "octocat" ∧ name = "hello-world" then .ok mockRepo
      else .error "sql: no rows in result set" }

/-- A commit service that resolves the abbreviated id `cce10d5c` and the branch
reference `refs/heads/master` to `mockCommit`, and nothing else. -/
def mockCommits : CommitService :=
  { Find := fun _ _ _ sha =>
      if sha = "cce10d5c" then .ok mockCommit else .error "Not Found"
    FindRef := fun _ _ _ ref =>
      if ref = "refs/heads/master" then .ok mockCommit else .error "Not Found" }

/-- A scheduler that accepts every event. -/
def mockTriggerer : Triggerer :=
  { Trigger := fun _ _ _ => .ok { ID := 1, Number := 1 } }

/-- A scheduler that rejects every event. -/
def failingTriggerer : Triggerer :=
  { Trigger := fun _ _ _ => .error "trigger: cannot create build" }

/-- A request for the fixture repository by `mockUser`, with the given query. -/
def mockRequest (query : Values) : Request :=
  { URLParams := [("owner", "octocat"), ("name", "hello-world")]
    PostForm := []
    Query := query
    User := some mockUser }

/-- A repository store whose repository belongs to an account that no longer exists. -/
def orphanRepos : RepositoryStore :=
  { FindName := fun _ _ _ => .ok { mockRepo with UserID := 2 } }

/-- A request for the fixture repository with no user attached to its context. -/
def anonymousRequest (query : Values) : Request :=
  { URLParams := [("owner", "octocat"), ("name", "hello-world")]
    PostForm := []
    Query := query
    User := none }

/-- The Event Record of a request by `mockUser` that resolves `mockCommit` and leaves
every optional field empty, for the given reference, branches and parameters. -/
def mockHook (ref source target : String) (params : StringMap) : Hook :=
  { Trigger := "octocat"
    Event := "custom"
    Link := "https://github.com/octocat/hello-world/commit/cce10d5c"
    Timestamp := 1532303087
    Title := ""
    Message := "updated README.md"
    Before := "cce10d5c4760d1d6ede99db850ab7e77efe15579"
    After := "cce10d5c4760d1d6ede99db850ab7e77efe15579"
    Ref := ref
    Source := source
    Target := target
    Author := "octocat"
    AuthorName := "The Octocat"
    AuthorEmail := "octocat@github.com"
    AuthorAvatar := "https://avatars2.githubusercontent.com/u/251370"
    Sender := "octocat"
    Params := params }

/-- A commit on the branch `dev` of the fixture repository. -/
def devCommit : Commit :=
  { Sha := "7fd1a60b01f91b314f59955a4e4d4e80d8edf11d"
    Ref := "refs/heads/dev"
    Message := "add the staging pipeline"
    Author :=
      { Name := "Mona Lisa", Email := "mona@github.com", Date := 1532390400,
        Login := "mona", Avatar := "https://avatars2.githubusercontent.com/u/583231" }
    Link := "https://github.com/octocat/hello-world/commit/7fd1a60b" }

/-- A commit service that resolves the abbreviated id `7fd1a60b` to `devCommit`, and
nothing else. -/
def devCommits : CommitService :=
  { Find := fun _ _ _ sha =>
      if sha = "7fd1a60b" then .ok devCommit else .error "Not Found"
    FindRef := fun _ _ _ _ => .error "Not Found" }

/-- The Event Record of a request by `mockUser` that resolves `devCommit` and leaves
every optional field empty, for the given reference, branches and parameters. -/
def devHook (ref source target : String) (params : StringMap) : Hook :=
  { Trigger := "octocat"
    Event := "custom"
    Link := "https://github.com/octocat/hello-world/commit/7fd1a60b"
    Timestamp := 1532390400
    Title := ""
    Message := "add the staging pipeline"
    Before := "7fd1a60b01f91b314f59955a4e4d4e80d8edf11d"
    After := "7fd1a60b01f91b314f59955a4e4d4e80d8edf11d"
    Ref := ref
    Source := source
    Target := target
    Author := "mona"
    AuthorName := "Mona Lisa"
    AuthorEmail := "mona@github.com"
    AuthorAvatar := "https://avatars2.githubusercontent.com/u/583231"
    Sender := "octocat"
    Params := params }

/-- A request for the fixture repository by `mockUser`, with the given body
parameters and query. -/
def mockFormRequest (form query : Values) : Request :=
  { URLParams := [("owner", "octocat"), ("name", "hello-world")]
    PostForm := form
    Query := query
    User := some mockUser }

/-- A scheduler that accepts the events of a context with a user, and no others. -/
def guardedTriggerer : Triggerer :=
  { Trigger := fun ctx _ _ =>
      match UserFrom ctx with
      | some _ => .ok { ID := 1, Number := 1 }
      | none => .error "trigger: unauthorized" }

/-- A commit service that answers like `mockCommits` in a context with a user, and
finds nothing in a context without one. -/
def guardedCommits : CommitService :=
  { Find := fun ctx owner slug sha =>
      match UserFrom ctx with
      | some _ => mockCommits.Find ctx owner slug sha
      | none => .error "Not Found"
    FindRef := fun ctx owner slug ref =>
      match UserFrom ctx with
      | some _ => mockCommits.FindRef ctx owner slug ref
      | none => .error "Not Found" }

/-- The context of the requests by `mockUser`. -/
def mockContext : Context := { User := some mockUser }

/-! ## Control flow of the handler -/

/-- The user of the context of a request is the user attached to the request. -/
theorem userFrom_context (r : Request) : UserFrom r.Context = r.User :=
  rfl

section ControlFlow

variable {users : UserStore} {repos : RepositoryStore} {commits : CommitService}
  {triggerer : Triggerer} {r : Request}

/-- The run when the repository lookup fails. -/
theorem run_repo_error {err : Error} (hrepo : repoResult repos r = .error err) :
    HandleCreate users repos commits triggerer r = ⟨[repoCall r], none, .NotFound err⟩ := by
  simp only [repoResult] at hrepo
  simp only [HandleCreate, hrepo]

/-- The run when the owner lookup fails. -/
theorem run_owner_error {repo : Repository} {err : Error}
    (hrepo : repoResult repos r = .ok repo)
        (howner : users.Find r.Context repo.UserID = .error err) :
    HandleCreate users repos commits triggerer r
      = ⟨[repoCall r, .UsersFind repo.UserID], none, .NotFound err⟩ := by
  simp only [repoResult] at hrepo
  simp only [HandleCreate, hrepo, howner]

/-- The run when the commit lookup fails. -/
theorem run_commit_error {repo : Repository} {owner : User} {err : Error}
    (hrepo : repoResult repos r = .ok repo) (howner : users.Find r.Context repo.UserID = .ok owner)
    (hcommit : commitResult commits r repo owner = .error err) :
    HandleCreate users repos commits triggerer r
      = ⟨[repoCall r, .UsersFind repo.UserID, commitCall r repo owner], none,
          .NotFound err⟩ := by
  simp only [repoResult] at hrepo
  simp only [commitResult, refOf, branchOf] at hcommit
  simp only [HandleCreate, hrepo, howner, hcommit, commitCall, refOf, branchOf]

/-- The run when the caller's login is needed and no user is attached. -/
theorem run_panic {repo : Repository} {owner : User} {commit : Commit}
    (hrepo : repoResult repos r = .ok repo) (howner : users.Find r.Context repo.UserID = .ok owner)
    (hcommit : commitResult commits r repo owner = .ok commit)
    (htrigger : triggerOf r = none) :
    HandleCreate users repos commits triggerer r
      = ⟨[repoCall r, .UsersFind repo.UserID, commitCall r repo owner], none, .Panic⟩ := by
  simp only [repoResult] at hrepo
  simp only [commitResult, refOf, branchOf] at hcommit
  simp only [triggerOf] at htrigger
  simp only [HandleCreate, hrepo, howner, hcommit, htrigger, commitCall, refOf, branchOf]

/-- The run when the three lookups succeed and the trigger identity is known. -/
theorem run_trigger {repo : Repository} {owner : User} {commit : Commit} {trigger : String}
    (hrepo : repoResult repos r = .ok repo) (howner : users.Find r.Context repo.UserID = .ok owner)
    (hcommit : commitResult commits r repo owner = .ok commit)
    (htrigger : triggerOf r = some trigger) :
    HandleCreate users repos commits triggerer r
      = ⟨[repoCall r, .UsersFind repo.UserID, commitCall r repo owner,
           .Trigger repo (hookOf r repo commit trigger)],
          some (hookOf r repo commit trigger),
          renderResult (triggerer.Trigger r.Context repo (hookOf r repo commit trigger))⟩ := by
  simp only [repoResult] at hrepo
  simp only [commitResult, refOf, branchOf] at hcommit
  simp only [triggerOf] at htrigger
  simp only [HandleCreate, hrepo, howner, hcommit, htrigger, commitCall, refOf, branchOf,
    hookOf, renderResult]
  split <;> rfl

end ControlFlow

/-! ## Map assignment and the parameter loop -/

/-- Reading the first entry of an association list, with a decidable equality test. -/
theorem lookup_cons_ite {β : Type} (k a : String) (b : β) (es : List (String × β)) :
    List.lookup k ((a, b) :: es) = if k = a then some b else List.lookup k es := by
  by_cases h : k = a
  · simp [List.lookup, h]
  · have hb : (k == a) = false := by simpa using h
    simp [List.lookup, hb, h]

/-- Reading a map after an assignment. -/
theorem StringMap.index_assign (m : StringMap) (key value k : String) :
    StringMap.index (StringMap.assign m key value) k
      = if k = key then some value else StringMap.index m k := by
  induction m with
  | nil => simp [StringMap.assign, StringMap.index, lookup_cons_ite]
  | cons e rest ih =>
    obtain ⟨k1, v1⟩ := e
    simp only [StringMap.index] at ih ⊢
    by_cases h1 : k1 = key
    · subst h1
      simp only [StringMap.assign, if_true, lookup_cons_ite]
      split <;> rfl
    · simp only [StringMap.assign, h1, if_false, lookup_cons_ite, ih]
      by_cases hk1 : k = k1
      · have hk : ¬ k = key := fun h => h1 (hk1 ▸ h)
        simp [hk1, h1]
      · simp [hk1]

/-- The keys of a map after an assignment. -/
theorem StringMap.mem_keys_assign (m : StringMap) (key value k : String) :
    k ∈ (StringMap.assign m key value).map Prod.fst ↔ k = key ∨ k ∈ m.map Prod.fst := by
  induction m with
  | nil => simp [StringMap.assign]
  | cons e rest ih =>
    obtain ⟨k1, v1⟩ := e
    by_cases h1 : k1 = key
    · subst h1
      simp [StringMap.assign]
    · simp only [StringMap.assign, h1, if_false, List.map_cons, List.mem_cons, ih]
      tauto

/-- An assignment keeps the keys of a map pairwise distinct. -/
theorem StringMap.nodup_keys_assign (m : StringMap) (key value : String)
    (h : (m.map Prod.fst).Nodup) : ((StringMap.assign m key value).map Prod.fst).Nodup := by
  induction m with
  | nil => simp [StringMap.assign]
  | cons e rest ih =>
    obtain ⟨k1, v1⟩ := e
    simp only [List.map_cons, List.nodup_cons] at h
    by_cases h1 : k1 = key
    · subst h1
      simpa [StringMap.assign] using h
    · simp only [StringMap.assign, h1, if_false, List.map_cons, List.nodup_cons]
      refine ⟨?_, ih h.2⟩
      rw [StringMap.mem_keys_assign]
      rintro (hk | hk)
      · exact h1 hk
      · exact h.1 hk

theorem collectParams_eq (query : Values) : collectParams query = query.foldl paramsStep [] :=
  rfl

/-- Every key that the loop adds is a query key outside the reserved set. -/
theorem mem_keys_foldl_paramsStep (query : Values) (acc : StringMap) (k : String)
    (h : k ∈ (query.foldl paramsStep acc).map Prod.fst) :
    k ∈ acc.map Prod.fst ∨
      (¬ (k = "access_token" ∨ k = "commit" ∨ k = "branch") ∧ k ∈ query.map Prod.fst) := by
  induction query generalizing acc with
  | nil => exact Or.inl h
  | cons e rest ih =>
    rw [List.foldl_cons] at h
    rcases ih _ h with h1 | h1
    · unfold paramsStep at h1
      split at h1
      · exact Or.inl h1
      · rename_i hres
        split at h1
        · exact Or.inl h1
        · rw [StringMap.mem_keys_assign] at h1
          rcases h1 with h1 | h1
          · right
            subst h1
            exact ⟨hres, by simp⟩
          · exact Or.inl h1
    · exact Or.inr ⟨h1.1, by simp [h1.2]⟩

/-- The loop keeps the keys of the parameter map pairwise distinct. -/
theorem nodup_keys_foldl_paramsStep (query : Values) (acc : StringMap)
    (h : (acc.map Prod.fst).Nodup) : ((query.foldl paramsStep acc).map Prod.fst).Nodup := by
  induction query generalizing acc with
  | nil => exact h
  | cons e rest ih =>
    rw [List.foldl_cons]
    apply ih
    unfold paramsStep
    split
    · exact h
    · split
      · exact h
      · exact StringMap.nodup_keys_assign _ _ _ h

/-- What the loop leaves under a key, for a query whose keys are pairwise distinct. -/
theorem index_foldl_paramsStep (query : Values) (acc : StringMap) (k : String)
    (hwf : Values.WellFormed query) :
    StringMap.index (query.foldl paramsStep acc) k =
      if k = "access_token" ∨ k = "commit" ∨ k = "branch" then StringMap.index acc k
      else match query.lookup k with
        | some (v :: _) => some v
        | _ => StringMap.index acc k := by
  induction query generalizing acc with
  | nil => simp
  | cons e rest ih =>
    obtain ⟨key, value⟩ := e
    simp only [Values.WellFormed, List.map_cons, List.nodup_cons] at hwf
    rw [List.foldl_cons, ih _ hwf.2]
    by_cases hres : k = "access_token" ∨ k = "commit" ∨ k = "branch"
    · simp only [hres, if_true]
      unfold paramsStep
      split
      · rfl
      · rename_i hkey
        split
        · rfl
        · rw [StringMap.index_assign]
          have : ¬ k = key := fun h => hkey (h ▸ hres)
          simp [this]
    · simp only [hres, if_false]
      by_cases hk : k = key
      · subst hk
        have hnone : List.lookup k rest = none := by
          rw [List.lookup_eq_none_iff]
          intro p hp
          have : p.1 ∈ rest.map Prod.fst := List.mem_map_of_mem _ hp
          simp only [bne_iff_ne, ne_eq]
          intro hkp
          exact hwf.1 (hkp ▸ this)
        simp only [hnone, lookup_cons_ite, if_true]
        unfold paramsStep
        simp only [hres, if_false]
        cases value with
        | nil => simp
        | cons v vs => simp [StringMap.index_assign]
      · simp only [lookup_cons_ite, hk, if_false]
        have hacc : StringMap.index (paramsStep acc (key, value)) k = StringMap.index acc k := by
          unfold paramsStep
          split
          · rfl
          · split
            · rfl
            · rw [StringMap.index_assign]; simp [hk]
        rw [hacc]

/-! ## Case analysis of a run -/

/-- Every run takes one of the five paths through the handler. -/
theorem run_cases (users : UserStore) (repos : RepositoryStore) (commits : CommitService)
    (r : Request) :
    (∃ err, repoResult repos r = .error err) ∨
    (∃ repo err, repoResult repos r = .ok repo ∧ users.Find r.Context repo.UserID = .error err) ∨
    (∃ repo owner err, repoResult repos r = .ok repo ∧
        users.Find r.Context repo.UserID = .ok owner ∧
      commitResult commits r repo owner = .error err) ∨
    (∃ repo owner commit, repoResult repos r = .ok repo ∧
      users.Find r.Context repo.UserID = .ok owner ∧
      commitResult commits r repo owner = .ok commit ∧ triggerOf r = none) ∨
    (∃ repo owner commit trigger, repoResult repos r = .ok repo ∧
      users.Find r.Context repo.UserID = .ok owner ∧
      commitResult commits r repo owner = .ok commit ∧ triggerOf r = some trigger) := by
  cases hrepo : repoResult repos r with
  | error err => exact Or.inl ⟨err, rfl⟩
  | ok repo =>
    cases howner : users.Find r.Context repo.UserID with
    | error err => exact Or.inr (Or.inl ⟨repo, err, rfl, howner⟩)
    | ok owner =>
      cases hcommit : commitResult commits r repo owner with
      | error err => exact Or.inr (Or.inr (Or.inl ⟨repo, owner, err, rfl, howner, hcommit⟩))
      | ok commit =>
        cases htrigger : triggerOf r with
        | none =>
          exact Or.inr (Or.inr (Or.inr (Or.inl ⟨repo, owner, commit, rfl, howner, hcommit,
            rfl⟩)))
        | some trigger =>
          exact Or.inr (Or.inr (Or.inr (Or.inr ⟨repo, owner, commit, trigger, rfl, howner,
            hcommit, rfl⟩)))

/-- A commit lookup is not a call on the scheduler. -/
theorem commitCall_ne_trigger (r : Request) (repo : Repository) (owner : User)
    (repo1 : Repository) (hook : Hook) : Call.Trigger repo1 hook ≠ commitCall r repo owner := by
  unfold commitCall
  split <;> simp

/-- A commit lookup is a commit lookup. -/
theorem commitCall_isCommitLookup (r : Request) (repo : Repository) (owner : User) :
    (commitCall r repo owner).isCommitLookup = true := by
  unfold commitCall
  split <;> rfl

/-- A commit lookup is not a call on the scheduler. -/
theorem commitCall_isTrigger (r : Request) (repo : Repository) (owner : User) :
    (commitCall r repo owner).isTrigger = false := by
  unfold commitCall
  split <;> rfl

/-- Filtering the calls on the scheduler drops a commit lookup. -/
theorem filter_isTrigger_commitCall (r : Request) (repo : Repository) (owner : User) :
    List.filter Call.isTrigger [commitCall r repo owner] = [] := by
  rw [List.filter_cons_of_neg (by rw [commitCall_isTrigger]; simp)]
  rfl

/-- A run that hands an event to the scheduler went through the three lookups, and
the event is the record assembled from their results. -/
theorem trigger_call_inv {users : UserStore} {repos : RepositoryStore}
    {commits : CommitService} {triggerer : Triggerer} {r : Request}
    {repo : Repository} {hook : Hook}
    (h : Call.Trigger repo hook ∈ (HandleCreate users repos commits triggerer r).calls) :
    ∃ owner commit trigger, repoResult repos r = .ok repo ∧
      users.Find r.Context repo.UserID = .ok owner ∧
      commitResult commits r repo owner = .ok commit ∧
      triggerOf r = some trigger ∧ hook = hookOf r repo commit trigger := by
  rcases run_cases users repos commits r with ⟨err, h1⟩ | ⟨repo1, err, h1, h2⟩ |
    ⟨repo1, owner, err, h1, h2, h3⟩ | ⟨repo1, owner, commit, h1, h2, h3, h4⟩ |
    ⟨repo1, owner, commit, trigger, h1, h2, h3, h4⟩
  · rw [run_repo_error h1] at h
    simp at h
  · rw [run_owner_error h1 h2] at h
    simp at h
  · rw [run_commit_error h1 h2 h3] at h
    simp only [List.mem_cons, List.mem_singleton, List.not_mem_nil, or_false] at h
    rcases h with h | h | h
    · cases h
    · cases h
    · exact absurd h (commitCall_ne_trigger _ _ _ _ _)
  · rw [run_panic h1 h2 h3 h4] at h
    simp only [List.mem_cons, List.mem_singleton, List.not_mem_nil, or_false] at h
    rcases h with h | h | h
    · cases h
    · cases h
    · exact absurd h (commitCall_ne_trigger _ _ _ _ _)
  · rw [run_trigger h1 h2 h3 h4] at h
    simp only [List.mem_cons, List.mem_singleton, List.not_mem_nil, or_false] at h
    rcases h with h | h | h | h
    · cases h
    · cases h
    · exact absurd h (commitCall_ne_trigger _ _ _ _ _)
    · injection h with hr hh
      subst hr
      exact ⟨owner, commit, trigger, h1, h2, h3, h4, hh⟩

/-! ## Commit resolution -/

/-- C1: once the repository and its owner are found, the run makes exactly one commit
lookup. With a non-empty `commit` parameter it is `commits.Find` with that sha,
whatever `branch` and `ref` are; with an empty one it is `commits.FindRef` with the
normalised ref (the supplied ref, or the expansion of the defaulted branch). -/
theorem C1_one_commit_lookup (users : UserStore) (repos : RepositoryStore)
    (commits : CommitService) (triggerer : Triggerer) (r : Request)
    (repo : Repository) (owner : User)
    (hrepo : repos.FindName r.Context (r.URLParam "owner") (r.URLParam "name") = .ok repo)
    (howner : users.Find r.Context repo.UserID = .ok owner) :
    (r.FormValue "commit" ≠ "" →
      (HandleCreate users repos commits triggerer r).calls.filter Call.isCommitLookup
        = [Call.CommitsFind owner repo.Slug (r.FormValue "commit")]) ∧
    (r.FormValue "commit" = "" →
      (HandleCreate users repos commits triggerer r).calls.filter Call.isCommitLookup
        = [Call.CommitsFindRef owner repo.Slug
            (if r.FormValue "ref" = "" then
              ExpandRef (if r.FormValue "branch" = "" then repo.Branch
                else r.FormValue "branch") "refs/heads"
             else r.FormValue "ref")]) := by
  have hfilter : (HandleCreate users repos commits triggerer r).calls.filter
      Call.isCommitLookup = [commitCall r repo owner] := by
    have hone : List.filter Call.isCommitLookup [commitCall r repo owner]
        = [commitCall r repo owner] := by
      rw [List.filter_cons_of_pos (commitCall_isCommitLookup r repo owner)]
      rfl
    cases hcommit : commitResult commits r repo owner with
    | error err =>
      rw [run_commit_error hrepo howner hcommit]
      exact hone
    | ok commit =>
      cases htrigger : triggerOf r with
      | none =>
        rw [run_panic hrepo howner hcommit htrigger]
        exact hone
      | some trigger =>
        rw [run_trigger hrepo howner hcommit htrigger]
        show List.filter Call.isCommitLookup ([repoCall r, Call.UsersFind repo.UserID] ++
          ([commitCall r repo owner] ++ [Call.Trigger repo (hookOf r repo commit trigger)])) = _
        rw [List.filter_append, List.filter_append, hone]
        rfl
  rw [hfilter]
  constructor
  · intro hsha
    simp only [commitCall, hsha, ne_eq, not_false_eq_true, if_true]
  · intro hsha
    simp only [commitCall, hsha, ne_eq, not_true_eq_false, if_false]

/-- C1 at two requests for the fixture repository: one names the commit `cce10d5c`
next to a branch and a ref, one names the branch `dev` only. -/
theorem C1_one_commit_lookup_witness :
    (mockRepos.FindName mockContext "octocat" "hello-world" = .ok mockRepo ∧
      mockUsers.Find mockContext mockRepo.UserID = .ok mockUser) ∧
    (HandleCreate mockUsers mockRepos mockCommits mockTriggerer
        (mockRequest [("commit", ["cce10d5c"]), ("branch", ["dev"]),
          ("ref", ["refs/tags/v1"])])).calls.filter Call.isCommitLookup
      = [Call.CommitsFind mockUser "octocat/hello-world" "cce10d5c"] ∧
    (HandleCreate mockUsers mockRepos mockCommits mockTriggerer
        (mockRequest [("branch", ["dev"])])).calls.filter Call.isCommitLookup
      = [Call.CommitsFindRef mockUser "octocat/hello-world" "refs/heads/dev"] :=
  ⟨⟨rfl, rfl⟩,
   (C1_one_commit_lookup mockUsers mockRepos mockCommits mockTriggerer
      (mockRequest [("commit", ["cce10d5c"]), ("branch", ["dev"]),
        ("ref", ["refs/tags/v1"])]) mockRepo mockUser rfl rfl).1 (by decide),
   (C1_one_commit_lookup mockUsers mockRepos mockCommits mockTriggerer
      (mockRequest [("branch", ["dev"])]) mockRepo mockUser rfl rfl).2 (by decide)⟩

/-! ## Branch and reference defaulting -/

/-- C2: when `branch`, `source_branch`, `target_branch` and `ref` are all empty, the
Event Record handed to the scheduler has Source and Target equal to the default
branch of the repository and Ref equal to that branch expanded under `refs/heads`;
for the default branch `master` the Ref is `refs/heads/master`. -/
theorem C2_default_branch (users : UserStore) (repos : RepositoryStore)
    (commits : CommitService) (triggerer : Triggerer) (r : Request)
    (repo : Repository) (hook : Hook)
    (hbranch : r.FormValue "branch" = "") (hsource : r.FormValue "source_branch" = "")
    (htarget : r.FormValue "target_branch" = "") (href : r.FormValue "ref" = "")
    (hcall : Call.Trigger repo hook ∈ (HandleCreate users repos commits triggerer r).calls) :
    repos.FindName r.Context (r.URLParam "owner") (r.URLParam "name") = .ok repo ∧
    hook.Source = repo.Branch ∧ hook.Target = repo.Branch ∧
    hook.Ref = ExpandRef repo.Branch "refs/heads" ∧
    (repo.Branch = "master" → hook.Ref = "refs/heads/master") := by
  obtain ⟨owner, commit, trigger, h1, -, -, -, hh⟩ := trigger_call_inv hcall
  subst hh
  have hexp : (hookOf r repo commit trigger).Ref = ExpandRef repo.Branch "refs/heads" := by
    simp only [hookOf, refOf, branchOf, href, hbranch, if_true]
  refine ⟨h1, ?_, ?_, hexp, ?_⟩
  · simp only [hookOf, branchOf, hsource, hbranch, if_true]
  · simp only [hookOf, branchOf, htarget, hbranch, if_true]
  · intro hm
    rw [hexp, hm]
    decide

/-- C2 at the request with an empty query for the fixture repository, whose default
branch is `master`. -/
theorem C2_default_branch_witness :
    ((mockRequest []).FormValue "branch" = "" ∧
      (mockRequest []).FormValue "source_branch" = "" ∧
      (mockRequest []).FormValue "target_branch" = "" ∧
      (mockRequest []).FormValue "ref" = "" ∧
      Call.Trigger mockRepo (mockHook "refs/heads/master" "master" "master" [])
        ∈ (HandleCreate mockUsers mockRepos mockCommits mockTriggerer
            (mockRequest [])).calls) ∧
    (mockRepos.FindName (mockRequest []).Context ((mockRequest []).URLParam "owner")
        ((mockRequest []).URLParam "name") = .ok mockRepo ∧
      (mockHook "refs/heads/master" "master" "master" []).Source = mockRepo.Branch ∧
      (mockHook "refs/heads/master" "master" "master" []).Target = mockRepo.Branch ∧
      (mockHook "refs/heads/master" "master" "master" []).Ref
        = ExpandRef mockRepo.Branch "refs/heads" ∧
      (mockRepo.Branch = "master" →
        (mockHook "refs/heads/master" "master" "master" []).Ref = "refs/heads/master")) :=
  ⟨⟨by decide, by decide, by decide, by decide, by decide⟩,
   C2_default_branch mockUsers mockRepos mockCommits mockTriggerer (mockRequest [])
     mockRepo (mockHook "refs/heads/master" "master" "master" [])
     (by decide) (by decide) (by decide) (by decide) (by decide)⟩

/-! ## Build parameters -/

/-- C3: the Params of the Event Record handed to the scheduler contain none of the
keys `access_token`, `commit`, `branch`, whatever the query is. -/
theorem C3_reserved_keys_absent (users : UserStore) (repos : RepositoryStore)
    (commits : CommitService) (triggerer : Triggerer) (r : Request)
    (repo : Repository) (hook : Hook)
    (hcall : Call.Trigger repo hook ∈ (HandleCreate users repos commits triggerer r).calls) :
    "access_token" ∉ hook.Params.map Prod.fst ∧
    "commit" ∉ hook.Params.map Prod.fst ∧
    "branch" ∉ hook.Params.map Prod.fst := by
  obtain ⟨owner, commit, trigger, -, -, -, -, hh⟩ := trigger_call_inv hcall
  subst hh
  have key : ∀ k, (k = "access_token" ∨ k = "commit" ∨ k = "branch") →
      k ∉ (collectParams r.Query).map Prod.fst := by
    intro k hk hmem
    rw [collectParams_eq] at hmem
    rcases mem_keys_foldl_paramsStep _ _ _ hmem with h | h
    · simp at h
    · exact h.1 hk
  exact ⟨key _ (Or.inl rfl), key _ (Or.inr (Or.inl rfl)), key _ (Or.inr (Or.inr rfl))⟩

/-- C3 at a request whose query carries the three reserved keys and one more. -/
theorem C3_reserved_keys_absent_witness :
    Call.Trigger mockRepo (mockHook "refs/heads/master" "master" "master" [("stage", "qa")])
      ∈ (HandleCreate mockUsers mockRepos mockCommits mockTriggerer
          (mockRequest [("access_token", ["s3cr3t"]), ("commit", ["cce10d5c"]),
            ("stage", ["qa"]), ("branch", ["master"])])).calls ∧
    ("access_token" ∉ [("stage", "qa")].map Prod.fst ∧
      "commit" ∉ [("stage", "qa")].map Prod.fst ∧
      "branch" ∉ [("stage", "qa")].map Prod.fst) :=
  ⟨by decide,
   C3_reserved_keys_absent mockUsers mockRepos mockCommits mockTriggerer
     (mockRequest [("access_token", ["s3cr3t"]), ("commit", ["cce10d5c"]),
       ("stage", ["qa"]), ("branch", ["master"])])
     mockRepo (mockHook "refs/heads/master" "master" "master" [("stage", "qa")])
     (by decide)⟩

/-- C4: for a query whose keys are pairwise distinct, the Params of the Event Record
handed to the scheduler hold, under each key that is not `access_token`, `commit` or
`branch` and has a non-empty value list in the query, the first value of that list,
and nothing else; the record handed over is the record that the handler built, and
its keys are pairwise distinct. -/
theorem C4_params_exact (users : UserStore) (repos : RepositoryStore)
    (commits : CommitService) (triggerer : Triggerer) (r : Request)
    (repo : Repository) (hook : Hook)
    (hwf : Values.WellFormed r.Query)
    (hcall : Call.Trigger repo hook ∈ (HandleCreate users repos commits triggerer r).calls) :
    (∀ k, StringMap.index hook.Params k =
      if k = "access_token" ∨ k = "commit" ∨ k = "branch" then none
      else match r.Query.lookup k with
        | some (v :: _) => some v
        | _ => none) ∧
    (hook.Params.map Prod.fst).Nodup ∧
    (HandleCreate users repos commits triggerer r).hook = some hook := by
  obtain ⟨owner, commit, trigger, h1, h2, h3, h4, hh⟩ := trigger_call_inv hcall
  subst hh
  refine ⟨?_, ?_, ?_⟩
  · intro k
    show StringMap.index (collectParams r.Query) k = _
    rw [collectParams_eq, index_foldl_paramsStep _ _ _ hwf]
    simp [StringMap.index]
  · show ((collectParams r.Query).map Prod.fst).Nodup
    rw [collectParams_eq]
    exact nodup_keys_foldl_paramsStep _ _ (by simp)
  · rw [run_trigger h1 h2 h3 h4]

/-- C4 at a request whose query carries the three reserved keys, a key with two
values, a key whose first value is empty and a key with no value. -/
theorem C4_params_exact_witness :
    (Values.WellFormed (mockRequest [("access_token", ["s3cr3t"]), ("commit", ["cce10d5c"]),
        ("branch", ["master"]), ("stage", ["qa", "prod"]), ("flag", [""]),
        ("skip", [])]).Query ∧
      Call.Trigger mockRepo
          (mockHook "refs/heads/master" "master" "master" [("stage", "qa"), ("flag", "")])
        ∈ (HandleCreate mockUsers mockRepos mockCommits mockTriggerer
            (mockRequest [("access_token", ["s3cr3t"]), ("commit", ["cce10d5c"]),
              ("branch", ["master"]), ("stage", ["qa", "prod"]), ("flag", [""]),
              ("skip", [])])).calls) ∧
    ((∀ k, StringMap.index [("stage", "qa"), ("flag", "")] k =
        if k = "access_token" ∨ k = "commit" ∨ k = "branch" then none
        else match List.lookup k [("access_token", ["s3cr3t"]), ("commit", ["cce10d5c"]),
            ("branch", ["master"]), ("stage", ["qa", "prod"]), ("flag", [""]),
            ("skip", [])] with
          | some (v :: _) => some v
          | _ => none) ∧
      ([("stage", "qa"), ("flag", "")].map Prod.fst).Nodup ∧
      (HandleCreate mockUsers mockRepos mockCommits mockTriggerer
          (mockRequest [("access_token", ["s3cr3t"]), ("commit", ["cce10d5c"]),
            ("branch", ["master"]), ("stage", ["qa", "prod"]), ("flag", [""]),
            ("skip", [])])).hook
        = some (mockHook "refs/heads/master" "master" "master"
            [("stage", "qa"), ("flag", "")])) :=
  ⟨⟨by decide, by decide⟩,
   C4_params_exact mockUsers mockRepos mockCommits mockTriggerer
     (mockRequest [("access_token", ["s3cr3t"]), ("commit", ["cce10d5c"]),
       ("branch", ["master"]), ("stage", ["qa", "prod"]), ("flag", [""]), ("skip", [])])
     mockRepo (mockHook "refs/heads/master" "master" "master" [("stage", "qa"), ("flag", "")])
     (by decide) (by decide)⟩

/-! ## Failures -/

/-- C5: when the repository and the owner are found and the commit lookup that the
run makes returns an error, the response is not-found (404) with that error, no
Event Record is constructed and the scheduler is not called. -/
theorem C5_commit_error_not_found (users : UserStore) (repos : RepositoryStore)
    (commits : CommitService) (triggerer : Triggerer) (r : Request)
    (repo : Repository) (owner : User) (err : Error)
    (hrepo : repos.FindName r.Context (r.URLParam "owner") (r.URLParam "name") = .ok repo)
    (howner : users.Find r.Context repo.UserID = .ok owner)
    (hfind : r.FormValue "commit" ≠ "" →
      commits.Find r.Context owner repo.Slug (r.FormValue "commit") = .error err)
    (hfindref : r.FormValue "commit" = "" →
      commits.FindRef r.Context owner repo.Slug
        (if r.FormValue "ref" = "" then
          ExpandRef (if r.FormValue "branch" = "" then repo.Branch
            else r.FormValue "branch") "refs/heads"
         else r.FormValue "ref") = .error err) :
    (HandleCreate users repos commits triggerer r).response = .NotFound err ∧
    (HandleCreate users repos commits triggerer r).response.status = some 404 ∧
    (HandleCreate users repos commits triggerer r).hook = none ∧
    (HandleCreate users repos commits triggerer r).calls.filter Call.isTrigger = [] := by
  have hcommit : commitResult commits r repo owner = .error err := by
    by_cases hsha : r.FormValue "commit" = ""
    · simp only [commitResult, hsha, ne_eq, not_true_eq_false, if_false]
      exact hfindref hsha
    · simp only [commitResult, hsha, ne_eq, not_false_eq_true, if_true]
      exact hfind hsha
  rw [run_commit_error hrepo howner hcommit]
  refine ⟨rfl, rfl, rfl, ?_⟩
  show List.filter Call.isTrigger ([repoCall r, Call.UsersFind repo.UserID] ++
    [commitCall r repo owner]) = _
  rw [List.filter_append, filter_isTrigger_commitCall]
  rfl

/-- C5 at two requests for the fixture repository: one names the unknown commit
`deadbeef`, one names the unknown branch `gone`. -/
theorem C5_commit_error_not_found_witness :
    ((HandleCreate mockUsers mockRepos mockCommits mockTriggerer
          (mockRequest [("commit", ["deadbeef"])])).response = .NotFound "Not Found" ∧
      (HandleCreate mockUsers mockRepos mockCommits mockTriggerer
          (mockRequest [("commit", ["deadbeef"])])).response.status = some 404 ∧
      (HandleCreate mockUsers mockRepos mockCommits mockTriggerer
          (mockRequest [("commit", ["deadbeef"])])).hook = none ∧
      (HandleCreate mockUsers mockRepos mockCommits mockTriggerer
          (mockRequest [("commit", ["deadbeef"])])).calls.filter Call.isTrigger = []) ∧
    ((HandleCreate mockUsers mockRepos mockCommits mockTriggerer
          (mockRequest [("branch", ["gone"])])).response = .NotFound "Not Found" ∧
      (HandleCreate mockUsers mockRepos mockCommits mockTriggerer
          (mockRequest [("branch", ["gone"])])).response.status = some 404 ∧
      (HandleCreate mockUsers mockRepos mockCommits mockTriggerer
          (mockRequest [("branch", ["gone"])])).hook = none ∧
      (HandleCreate mockUsers mockRepos mockCommits mockTriggerer
          (mockRequest [("branch", ["gone"])])).calls.filter Call.isTrigger = []) :=
  ⟨C5_commit_error_not_found mockUsers mockRepos mockCommits mockTriggerer
      (mockRequest [("commit", ["deadbeef"])]) mockRepo mockUser "Not Found" rfl rfl
      (fun _ => rfl) (fun h => absurd h (by decide)),
   C5_commit_error_not_found mockUsers mockRepos mockCommits mockTriggerer
      (mockRequest [("branch", ["gone"])]) mockRepo mockUser "Not Found" rfl rfl
      (fun h => absurd rfl h) (fun _ => rfl)⟩

/-- C6: the run ends at the first failed lookup. When `repos.FindName` fails, the
response is not-found and the repository lookup is the only call; when it succeeds
and `users.Find` fails, the response is not-found and the two lookups are the only
calls. In both cases the run is the same for every request with the same route
parameters and the same user attached, whatever its form parameters are. -/
theorem C6_exit_on_first_failure (users : UserStore) (repos : RepositoryStore)
    (commits : CommitService) (triggerer : Triggerer) (r : Request) :
    (∀ err, repos.FindName r.Context (r.URLParam "owner") (r.URLParam "name") = .error err →
      HandleCreate users repos commits triggerer r
        = ⟨[Call.ReposFindName (r.URLParam "owner") (r.URLParam "name")], none,
            .NotFound err⟩) ∧
    (∀ repo err, repos.FindName r.Context (r.URLParam "owner") (r.URLParam "name") = .ok repo →
      users.Find r.Context repo.UserID = .error err →
      HandleCreate users repos commits triggerer r
        = ⟨[Call.ReposFindName (r.URLParam "owner") (r.URLParam "name"),
             Call.UsersFind repo.UserID], none, .NotFound err⟩) ∧
    (∀ r2 : Request, r2.URLParams = r.URLParams → r2.User = r.User →
      ((∃ err, repos.FindName r.Context (r.URLParam "owner") (r.URLParam "name") = .error err) ∨
        (∃ repo err, repos.FindName r.Context (r.URLParam "owner") (r.URLParam "name") = .ok repo ∧
          users.Find r.Context repo.UserID = .error err)) →
      HandleCreate users repos commits triggerer r2
        = HandleCreate users repos commits triggerer r) := by
  refine ⟨fun err h => run_repo_error h, fun repo err h1 h2 => run_owner_error h1 h2, ?_⟩
  intro r2 hparams huser hfail
  have hp : ∀ key, r2.URLParam key = r.URLParam key := by
    intro key
    simp only [Request.URLParam, hparams]
  have hctx : r2.Context = r.Context := by
    simp only [Request.Context, huser]
  rcases hfail with ⟨err, h⟩ | ⟨repo, err, h1, h2⟩
  · have h' : repoResult repos r2 = .error err := by
      simp only [repoResult, hp, hctx]
      exact h
    rw [run_repo_error h, run_repo_error h']
    simp only [repoCall, hp]
  · have h1' : repoResult repos r2 = .ok repo := by
      simp only [repoResult, hp, hctx]
      exact h1
    rw [run_owner_error h1 h2, run_owner_error h1' (hctx ▸ h2)]
    simp only [repoCall, hp]

/-- C6 at a request for a repository that does not exist, and at a request for a
repository whose owner does not exist. -/
theorem C6_exit_on_first_failure_witness :
    HandleCreate mockUsers mockRepos mockCommits mockTriggerer
        { URLParams := [("owner", "octocat"), ("name", "spoon-knife")], PostForm := [],
          Query := [("commit", ["cce10d5c"])], User := some mockUser }
      = ⟨[Call.ReposFindName "octocat" "spoon-knife"], none,
          .NotFound "sql: no rows in result set"⟩ ∧
    HandleCreate mockUsers orphanRepos mockCommits mockTriggerer (mockRequest [])
      = ⟨[Call.ReposFindName "octocat" "hello-world", Call.UsersFind 2], none,
          .NotFound "sql: no rows in result set"⟩ :=
  ⟨(C6_exit_on_first_failure mockUsers mockRepos mockCommits mockTriggerer
      { URLParams := [("owner", "octocat"), ("name", "spoon-knife")], PostForm := [],
        Query := [("commit", ["cce10d5c"])], User := some mockUser }).1
      "sql: no rows in result set" rfl,
   (C6_exit_on_first_failure mockUsers orphanRepos mockCommits mockTriggerer
      (mockRequest [])).2.1 { mockRepo with UserID := 2 } "sql: no rows in result set"
      rfl rfl⟩

/-! ## Outcomes -/

/-- The three lookups have at most one result. -/
theorem LookupsSucceed.unique {users : UserStore} {repos : RepositoryStore}
    {commits : CommitService} {r : Request} {repo repo2 : Repository} {owner owner2 : User}
    {commit commit2 : Commit}
    (h : LookupsSucceed users repos commits r repo owner commit)
    (h2 : LookupsSucceed users repos commits r repo2 owner2 commit2) :
    repo2 = repo ∧ owner2 = owner ∧ commit2 = commit := by
  obtain ⟨a1, a2, a3⟩ := h
  obtain ⟨b1, b2, b3⟩ := h2
  have hr : repo2 = repo := by
    rw [a1] at b1
    injection b1 with b1
    exact b1.symm
  subst hr
  have ho : owner2 = owner := by
    rw [a2] at b2
    injection b2 with b2
    exact b2.symm
  subst ho
  rw [a3] at b3
  injection b3 with b3
  exact ⟨rfl, rfl, b3.symm⟩

/-- A failed lookup excludes that the three lookups succeed. -/
theorem LookupFails.not_succeed {users : UserStore} {repos : RepositoryStore}
    {commits : CommitService} {r : Request} (h : LookupFails users repos commits r)
    (repo : Repository) (owner : User) (commit : Commit) :
    ¬ LookupsSucceed users repos commits r repo owner commit := by
  rintro ⟨a1, a2, a3⟩
  rcases h with ⟨err, b1⟩ | ⟨repo2, err, b1, b2⟩ | ⟨repo2, owner2, err, b1, b2, b3⟩
  · rw [a1] at b1
    cases b1
  · rw [a1] at b1
    injection b1 with b1
    subst b1
    rw [a2] at b2
    cases b2
  · rw [a1] at b1
    injection b1 with b1
    subst b1
    rw [a2] at b2
    injection b2 with b2
    subst b2
    rw [a3] at b3
    cases b3

/-- The outcome of a run that ends with a not-found response after a failed lookup. -/
theorem outcomes_of_lookup_failure {users : UserStore} {repos : RepositoryStore}
    {commits : CommitService} {triggerer : Triggerer} {r : Request} (err : Error)
    (hresp : (HandleCreate users repos commits triggerer r).response = .NotFound err)
    (hfail : LookupFails users repos commits r) :
    ((HandleCreate users repos commits triggerer r).response.status = some 404 ∨
      (HandleCreate users repos commits triggerer r).response.status = some 500 ∨
      (HandleCreate users repos commits triggerer r).response.status = some 200) ∧
    ((∃ err, (HandleCreate users repos commits triggerer r).response = .NotFound err) ↔
      LookupFails users repos commits r) ∧
    (∀ err, (HandleCreate users repos commits triggerer r).response = .InternalError err ↔
      ∃ repo owner commit hook, LookupsSucceed users repos commits r repo owner commit ∧
        (HandleCreate users repos commits triggerer r).hook = some hook ∧
        triggerer.Trigger r.Context repo hook = .error err) ∧
    (∀ build status,
      (HandleCreate users repos commits triggerer r).response = .JSON build status ↔
      status = 200 ∧
        ∃ repo owner commit hook, LookupsSucceed users repos commits r repo owner commit ∧
          (HandleCreate users repos commits triggerer r).hook = some hook ∧
          triggerer.Trigger r.Context repo hook = .ok build) ∧
    (∀ repo owner commit, LookupsSucceed users repos commits r repo owner commit →
      ∃ hook, (HandleCreate users repos commits triggerer r).hook = some hook ∧
        (HandleCreate users repos commits triggerer r).calls.filter Call.isTrigger
          = [Call.Trigger repo hook]) := by
  refine ⟨Or.inl (by rw [hresp]; rfl), ⟨fun _ => hfail, fun _ => ⟨err, hresp⟩⟩, ?_, ?_, ?_⟩
  · intro e
    constructor
    · intro h
      rw [hresp] at h
      cases h
    · rintro ⟨repo, owner, commit, hook, hs, -, -⟩
      exact absurd hs (hfail.not_succeed _ _ _)
  · intro b st
    constructor
    · intro h
      rw [hresp] at h
      cases h
    · rintro ⟨-, repo, owner, commit, hook, hs, -, -⟩
      exact absurd hs (hfail.not_succeed _ _ _)
  · intro repo owner commit hs
    exact absurd hs (hfail.not_succeed _ _ _)

/-- C7: a run in which a user is attached to the request, or `trigger` is non-empty,
or a lookup fails, ends in one of three outcomes. It is not-found (404) exactly when
the repository, owner or commit lookup fails; an internal error (500) exactly when the
three lookups succeed and `triggerer.Trigger` returns that error; a JSON response
(200) carrying the value of `triggerer.Trigger` exactly when the three lookups succeed
and it returns that value. When the lookups succeed the scheduler is called once,
with the repository of `repos.FindName` and the assembled Event Record. -/
theorem C7_three_outcomes (users : UserStore) (repos : RepositoryStore)
    (commits : CommitService) (triggerer : Triggerer) (r : Request)
    (huser : r.User ≠ none ∨ r.FormValue "trigger" ≠ "" ∨
      LookupFails users repos commits r) :
    ((HandleCreate users repos commits triggerer r).response.status = some 404 ∨
      (HandleCreate users repos commits triggerer r).response.status = some 500 ∨
      (HandleCreate users repos commits triggerer r).response.status = some 200) ∧
    ((∃ err, (HandleCreate users repos commits triggerer r).response = .NotFound err) ↔
      LookupFails users repos commits r) ∧
    (∀ err, (HandleCreate users repos commits triggerer r).response = .InternalError err ↔
      ∃ repo owner commit hook, LookupsSucceed users repos commits r repo owner commit ∧
        (HandleCreate users repos commits triggerer r).hook = some hook ∧
        triggerer.Trigger r.Context repo hook = .error err) ∧
    (∀ build status,
      (HandleCreate users repos commits triggerer r).response = .JSON build status ↔
      status = 200 ∧
        ∃ repo owner commit hook, LookupsSucceed users repos commits r repo owner commit ∧
          (HandleCreate users repos commits triggerer r).hook = some hook ∧
          triggerer.Trigger r.Context repo hook = .ok build) ∧
    (∀ repo owner commit, LookupsSucceed users repos commits r repo owner commit →
      ∃ hook, (HandleCreate users repos commits triggerer r).hook = some hook ∧
        (HandleCreate users repos commits triggerer r).calls.filter Call.isTrigger
          = [Call.Trigger repo hook]) := by
  rcases run_cases users repos commits r with ⟨err, h1⟩ | ⟨repo, err, h1, h2⟩ |
    ⟨repo, owner, err, h1, h2, h3⟩ | ⟨repo, owner, commit, h1, h2, h3, h4⟩ |
    ⟨repo, owner, commit, trigger, h1, h2, h3, h4⟩
  · exact outcomes_of_lookup_failure err (by rw [run_repo_error h1])
      (Or.inl ⟨err, h1⟩)
  · exact outcomes_of_lookup_failure err (by rw [run_owner_error h1 h2])
      (Or.inr (Or.inl ⟨repo, err, h1, h2⟩))
  · exact outcomes_of_lookup_failure err (by rw [run_commit_error h1 h2 h3])
      (Or.inr (Or.inr ⟨repo, owner, err, h1, h2, h3⟩))
  · exfalso
    simp only [triggerOf, userFrom_context] at h4
    rcases huser with hu | ht | hf
    · split at h4
      · cases hu' : r.User with
        | none => exact hu hu'
        | some u => rw [hu'] at h4; cases h4
      · cases h4
    · rw [if_neg ht] at h4
      cases h4
    · exact hf.not_succeed _ _ _ ⟨h1, h2, h3⟩
  · have hs : LookupsSucceed users repos commits r repo owner commit := ⟨h1, h2, h3⟩
    have hnf : ¬ LookupFails users repos commits r := fun hf => hf.not_succeed _ _ _ hs
    have hcalls : (HandleCreate users repos commits triggerer r).calls.filter Call.isTrigger
        = [Call.Trigger repo (hookOf r repo commit trigger)] := by
      rw [run_trigger h1 h2 h3 h4]
      show List.filter Call.isTrigger ([repoCall r, Call.UsersFind repo.UserID] ++
        ([commitCall r repo owner] ++ [Call.Trigger repo (hookOf r repo commit trigger)])) = _
      rw [List.filter_append, List.filter_append, filter_isTrigger_commitCall]
      rfl
    have hhook : (HandleCreate users repos commits triggerer r).hook
        = some (hookOf r repo commit trigger) := by
      rw [run_trigger h1 h2 h3 h4]
    have hresp : (HandleCreate users repos commits triggerer r).response
        = renderResult (triggerer.Trigger r.Context repo (hookOf r repo commit trigger)) := by
      rw [run_trigger h1 h2 h3 h4]
    rw [hhook, hresp]
    refine ⟨?_, ?_, ?_, ?_, ?_⟩
    · cases triggerer.Trigger r.Context repo (hookOf r repo commit trigger) with
      | error e => exact Or.inr (Or.inl rfl)
      | ok b => exact Or.inr (Or.inr rfl)
    · constructor
      · rintro ⟨e, he⟩
        cases hres : triggerer.Trigger r.Context repo (hookOf r repo commit trigger) <;>
          rw [hres] at he <;> cases he
      · intro hf
        exact absurd hf hnf
    · intro e
      constructor
      · intro he
        refine ⟨repo, owner, commit, _, hs, rfl, ?_⟩
        cases hres : triggerer.Trigger r.Context repo (hookOf r repo commit trigger) with
        | error e2 =>
          rw [hres] at he
          injection he with he
          rw [he]
        | ok b =>
          rw [hres] at he
          cases he
      · rintro ⟨repo2, owner2, commit2, hook2, hs2, hh, ht⟩
        obtain ⟨e1, -, -⟩ := hs.unique hs2
        subst e1
        injection hh with hh
        subst hh
        rw [ht]
    · intro b st
      constructor
      · intro he
        cases hres : triggerer.Trigger r.Context repo (hookOf r repo commit trigger) with
        | error e2 =>
          rw [hres] at he
          cases he
        | ok b2 =>
          rw [hres] at he
          injection he with he1 he2
          exact ⟨he2.symm, repo, owner, commit, _, hs, rfl, by rw [← he1]; exact hres⟩
      · rintro ⟨hst, repo2, owner2, commit2, hook2, hs2, hh, ht⟩
        obtain ⟨e1, -, -⟩ := hs.unique hs2
        subst e1
        injection hh with hh
        subst hh
        rw [ht, hst]
    · intro repo2 owner2 commit2 hs2
      obtain ⟨e1, -, -⟩ := hs.unique hs2
      subst e1
      exact ⟨_, rfl, hcalls⟩

/-- C7 at the request with an empty query by `mockUser`, with a scheduler that
rejects every event, and at a request with no user attached that names the unknown
commit `deadbeef`. -/
theorem C7_three_outcomes_witness :
    (((mockRequest []).User ≠ none ∨ (mockRequest []).FormValue "trigger" ≠ "" ∨
        LookupFails mockUsers mockRepos mockCommits (mockRequest [])) ∧
      LookupsSucceed mockUsers mockRepos mockCommits (mockRequest [])
        mockRepo mockUser mockCommit ∧
      ((HandleCreate mockUsers mockRepos mockCommits failingTriggerer
            (mockRequest [])).response.status = some 404 ∨
        (HandleCreate mockUsers mockRepos mockCommits failingTriggerer
            (mockRequest [])).response.status = some 500 ∨
        (HandleCreate mockUsers mockRepos mockCommits failingTriggerer
            (mockRequest [])).response.status = some 200) ∧
      ∃ hook, (HandleCreate mockUsers mockRepos mockCommits failingTriggerer
            (mockRequest [])).hook = some hook ∧
        (HandleCreate mockUsers mockRepos mockCommits failingTriggerer
            (mockRequest [])).calls.filter Call.isTrigger
          = [Call.Trigger mockRepo hook]) ∧
    (((anonymousRequest [("commit", ["deadbeef"])]).User ≠ none ∨
        (anonymousRequest [("commit", ["deadbeef"])]).FormValue "trigger" ≠ "" ∨
        LookupFails mockUsers mockRepos mockCommits
          (anonymousRequest [("commit", ["deadbeef"])])) ∧
      ((∃ err, (HandleCreate mockUsers mockRepos mockCommits mockTriggerer
            (anonymousRequest [("commit", ["deadbeef"])])).response = .NotFound err) ↔
        LookupFails mockUsers mockRepos mockCommits
          (anonymousRequest [("commit", ["deadbeef"])]))) :=
  ⟨⟨Or.inl (by decide), ⟨rfl, rfl, rfl⟩,
    (C7_three_outcomes mockUsers mockRepos mockCommits failingTriggerer (mockRequest [])
      (Or.inl (by decide))).1,
    (C7_three_outcomes mockUsers mockRepos mockCommits failingTriggerer (mockRequest [])
      (Or.inl (by decide))).2.2.2.2 mockRepo mockUser mockCommit ⟨rfl, rfl, rfl⟩⟩,
   ⟨Or.inr (Or.inr (Or.inr (Or.inr ⟨mockRepo, mockUser, "Not Found", rfl, rfl, rfl⟩))),
    (C7_three_outcomes mockUsers mockRepos mockCommits mockTriggerer
      (anonymousRequest [("commit", ["deadbeef"])])
      (Or.inr (Or.inr (Or.inr (Or.inr
        ⟨mockRepo, mockUser, "Not Found", rfl, rfl, rfl⟩))))).2.1⟩⟩

/-! ## Defaulting of the remaining fields -/

/-- C8: in the Event Record handed to the scheduler, Event is the `event` parameter
when it is non-empty and `core.EventCustom`, the string `custom`, otherwise; Trigger
is the `trigger` parameter when it is non-empty and the login of the user attached to
the request otherwise. -/
theorem C8_event_and_trigger (users : UserStore) (repos : RepositoryStore)
    (commits : CommitService) (triggerer : Triggerer) (r : Request)
    (repo : Repository) (hook : Hook)
    (hcall : Call.Trigger repo hook ∈ (HandleCreate users repos commits triggerer r).calls) :
    (r.FormValue "event" ≠ "" → hook.Event = r.FormValue "event") ∧
    (r.FormValue "event" = "" → hook.Event = EventCustom ∧ hook.Event = "custom") ∧
    (r.FormValue "trigger" ≠ "" → hook.Trigger = r.FormValue "trigger") ∧
    (r.FormValue "trigger" = "" → ∃ user, r.User = some user ∧ hook.Trigger = user.Login) := by
  obtain ⟨owner, commit, trigger, -, -, -, h4, hh⟩ := trigger_call_inv hcall
  subst hh
  refine ⟨?_, ?_, ?_, ?_⟩
  · intro he
    simp only [hookOf, he, if_false]
  · intro he
    have hev : (hookOf r repo commit trigger).Event = EventCustom := by
      simp only [hookOf, he, if_true]
    exact ⟨hev, hev.trans rfl⟩
  · intro ht
    simp only [triggerOf, ht, if_false] at h4
    injection h4 with h4
    exact h4.symm
  · intro ht
    simp only [triggerOf, ht, if_true, userFrom_context] at h4
    cases hu : r.User with
    | none =>
      rw [hu] at h4
      cases h4
    | some u =>
      rw [hu] at h4
      injection h4 with h4
      exact ⟨u, rfl, h4.symm⟩

/-- C8 at the request with an empty query by `mockUser`, and at a request that names
the event `push` and the trigger `cron`. -/
theorem C8_event_and_trigger_witness :
    (Call.Trigger mockRepo (mockHook "refs/heads/master" "master" "master" [])
        ∈ (HandleCreate mockUsers mockRepos mockCommits mockTriggerer
            (mockRequest [])).calls ∧
      (mockHook "refs/heads/master" "master" "master" []).Event = "custom" ∧
      ∃ user, (mockRequest []).User = some user ∧
        (mockHook "refs/heads/master" "master" "master" []).Trigger = user.Login) ∧
    (Call.Trigger mockRepo
        { mockHook "refs/heads/master" "master" "master"
            [("event", "push"), ("trigger", "cron")] with
          Event := "push", Trigger := "cron", Sender := "cron" }
        ∈ (HandleCreate mockUsers mockRepos mockCommits mockTriggerer
            (mockRequest [("event", ["push"]), ("trigger", ["cron"])])).calls ∧
      ({ mockHook "refs/heads/master" "master" "master"
            [("event", "push"), ("trigger", "cron")] with
          Event := "push", Trigger := "cron", Sender := "cron" } : Hook).Event
        = (mockRequest [("event", ["push"]), ("trigger", ["cron"])]).FormValue "event" ∧
      ({ mockHook "refs/heads/master" "master" "master"
            [("event", "push"), ("trigger", "cron")] with
          Event := "push", Trigger := "cron", Sender := "cron" } : Hook).Trigger
        = (mockRequest [("event", ["push"]), ("trigger", ["cron"])]).FormValue "trigger") :=
  ⟨⟨by decide,
    ((C8_event_and_trigger mockUsers mockRepos mockCommits mockTriggerer (mockRequest [])
      mockRepo (mockHook "refs/heads/master" "master" "master" []) (by decide)).2.1
        (by decide)).2,
    (C8_event_and_trigger mockUsers mockRepos mockCommits mockTriggerer (mockRequest [])
      mockRepo (mockHook "refs/heads/master" "master" "master" []) (by decide)).2.2.2
        (by decide)⟩,
   ⟨by decide,
    (C8_event_and_trigger mockUsers mockRepos mockCommits mockTriggerer
      (mockRequest [("event", ["push"]), ("trigger", ["cron"])]) mockRepo _
      (by decide)).1 (by decide),
    (C8_event_and_trigger mockUsers mockRepos mockCommits mockTriggerer
      (mockRequest [("event", ["push"]), ("trigger", ["cron"])]) mockRepo _
      (by decide)).2.2.1 (by decide)⟩⟩

/-- C9: in the Event Record handed to the scheduler, with `c` the commit that the
lookup of the run returned, Link is the `link` parameter when it is non-empty and
`c.Link` otherwise, Before is the `before` parameter when it is non-empty and `c.Sha`
otherwise, After is the `after` parameter when it is non-empty and `c.Sha` otherwise;
each of the three depends on its own parameter and on `c` only. -/
theorem C9_link_before_after (users : UserStore) (repos : RepositoryStore)
    (commits : CommitService) (triggerer : Triggerer) (r : Request)
    (repo : Repository) (hook : Hook)
    (hcall : Call.Trigger repo hook ∈ (HandleCreate users repos commits triggerer r).calls) :
    ∃ owner c, users.Find r.Context repo.UserID = .ok owner ∧
      (if r.FormValue "commit" ≠ "" then commits.Find r.Context owner repo.Slug
          (r.FormValue "commit")
        else commits.FindRef r.Context owner repo.Slug
          (if r.FormValue "ref" = "" then
            ExpandRef (if r.FormValue "branch" = "" then repo.Branch
              else r.FormValue "branch") "refs/heads"
           else r.FormValue "ref")) = .ok c ∧
      hook.Link = (if r.FormValue "link" ≠ "" then r.FormValue "link" else c.Link) ∧
      hook.Before = (if r.FormValue "before" ≠ "" then r.FormValue "before" else c.Sha) ∧
      hook.After = (if r.FormValue "after" ≠ "" then r.FormValue "after" else c.Sha) := by
  obtain ⟨owner, commit, trigger, -, h2, h3, -, hh⟩ := trigger_call_inv hcall
  subst hh
  refine ⟨owner, commit, h2, h3, ?_, ?_, ?_⟩
  · by_cases h : r.FormValue "link" = "" <;> simp [hookOf, h]
  · by_cases h : r.FormValue "before" = "" <;> simp [hookOf, h]
  · by_cases h : r.FormValue "after" = "" <;> simp [hookOf, h]

/-- C9 at a request that names the commit by the abbreviated id `cce10d5c` and gives
`before` but neither `after` nor `link`: After is the full id of the resolved commit,
which differs from the `commit` parameter. -/
theorem C9_link_before_after_witness :
    (Call.Trigger mockRepo
        { mockHook "refs/heads/master" "master" "master" [("before", "0000000")] with
          Before := "0000000" }
      ∈ (HandleCreate mockUsers mockRepos mockCommits mockTriggerer
          (mockRequest [("commit", ["cce10d5c"]), ("before", ["0000000"])])).calls ∧
      ({ mockHook "refs/heads/master" "master" "master" [("before", "0000000")] with
          Before := "0000000" } : Hook).After = "cce10d5c4760d1d6ede99db850ab7e77efe15579" ∧
      (mockRequest [("commit", ["cce10d5c"]), ("before", ["0000000"])]).FormValue "commit"
        = "cce10d5c") ∧
    ∃ owner c, mockUsers.Find mockContext mockRepo.UserID = .ok owner ∧
      (if (mockRequest [("commit", ["cce10d5c"]), ("before", ["0000000"])]).FormValue
            "commit" ≠ "" then
          mockCommits.Find mockContext owner mockRepo.Slug
            ((mockRequest [("commit", ["cce10d5c"]), ("before", ["0000000"])]).FormValue
              "commit")
        else mockCommits.FindRef mockContext owner mockRepo.Slug
          (if (mockRequest [("commit", ["cce10d5c"]), ("before", ["0000000"])]).FormValue
              "ref" = "" then
            ExpandRef
              (if (mockRequest [("commit", ["cce10d5c"]), ("before", ["0000000"])]).FormValue
                  "branch" = "" then mockRepo.Branch
                else (mockRequest [("commit", ["cce10d5c"]),
                  ("before", ["0000000"])]).FormValue "branch") "refs/heads"
           else (mockRequest [("commit", ["cce10d5c"]), ("before", ["0000000"])]).FormValue
              "ref")) = .ok c ∧
      ({ mockHook "refs/heads/master" "master" "master" [("before", "0000000")] with
          Before := "0000000" } : Hook).Link
        = (if (mockRequest [("commit", ["cce10d5c"]), ("before", ["0000000"])]).FormValue
              "link" ≠ "" then
            (mockRequest [("commit", ["cce10d5c"]), ("before", ["0000000"])]).FormValue "link"
          else c.Link) ∧
      ({ mockHook "refs/heads/master" "master" "master" [("before", "0000000")] with
          Before := "0000000" } : Hook).Before
        = (if (mockRequest [("commit", ["cce10d5c"]), ("before", ["0000000"])]).FormValue
              "before" ≠ "" then
            (mockRequest [("commit", ["cce10d5c"]), ("before", ["0000000"])]).FormValue
              "before"
          else c.Sha) ∧
      ({ mockHook "refs/heads/master" "master" "master" [("before", "0000000")] with
          Before := "0000000" } : Hook).After
        = (if (mockRequest [("commit", ["cce10d5c"]), ("before", ["0000000"])]).FormValue
              "after" ≠ "" then
            (mockRequest [("commit", ["cce10d5c"]), ("before", ["0000000"])]).FormValue
              "after"
          else c.Sha) :=
  ⟨⟨by decide, by decide, by decide⟩,
   C9_link_before_after mockUsers mockRepos mockCommits mockTriggerer
     (mockRequest [("commit", ["cce10d5c"]), ("before", ["0000000"])]) mockRepo
     { mockHook "refs/heads/master" "master" "master" [("before", "0000000")] with
       Before := "0000000" } (by decide)⟩

/-- C10: the branch defaults form a chain. With a non-empty `branch` and empty
`source_branch`, `target_branch` and `ref`, the Event Record handed to the scheduler
has Source and Target equal to the supplied branch and Ref equal to its expansion
under `refs/heads`; a non-empty `source_branch` or `target_branch` is kept as it is,
whatever `branch` is. -/
theorem C10_branch_chain (users : UserStore) (repos : RepositoryStore)
    (commits : CommitService) (triggerer : Triggerer) (r : Request)
    (repo : Repository) (hook : Hook)
    (hcall : Call.Trigger repo hook ∈ (HandleCreate users repos commits triggerer r).calls) :
    (r.FormValue "branch" ≠ "" → r.FormValue "source_branch" = "" →
      r.FormValue "target_branch" = "" → r.FormValue "ref" = "" →
      hook.Source = r.FormValue "branch" ∧ hook.Target = r.FormValue "branch" ∧
      hook.Ref = ExpandRef (r.FormValue "branch") "refs/heads") ∧
    (r.FormValue "source_branch" ≠ "" → hook.Source = r.FormValue "source_branch") ∧
    (r.FormValue "target_branch" ≠ "" → hook.Target = r.FormValue "target_branch") := by
  obtain ⟨owner, commit, trigger, -, -, -, -, hh⟩ := trigger_call_inv hcall
  subst hh
  refine ⟨?_, ?_, ?_⟩
  · intro hb hs ht hr
    simp only [hookOf, refOf, branchOf, hb, hs, ht, hr, if_true, if_false, and_self]
  · intro hs
    simp only [hookOf, hs, if_false]
  · intro ht
    simp only [hookOf, ht, if_false]

/-- C10 at a request that names the branch `dev` of the fixture repository (its
own branch is `master`), and at one that also names a source and a target branch. -/
theorem C10_branch_chain_witness :
    (Call.Trigger mockRepo (mockHook "refs/heads/dev" "dev" "dev" [])
        ∈ (HandleCreate mockUsers mockRepos mockCommits mockTriggerer
            (mockRequest [("commit", ["cce10d5c"]), ("branch", ["dev"])])).calls ∧
      (mockHook "refs/heads/dev" "dev" "dev" []).Source
        = (mockRequest [("commit", ["cce10d5c"]), ("branch", ["dev"])]).FormValue "branch" ∧
      (mockHook "refs/heads/dev" "dev" "dev" []).Target
        = (mockRequest [("commit", ["cce10d5c"]), ("branch", ["dev"])]).FormValue "branch" ∧
      (mockHook "refs/heads/dev" "dev" "dev" []).Ref
        = ExpandRef ((mockRequest [("commit", ["cce10d5c"]),
            ("branch", ["dev"])]).FormValue "branch") "refs/heads") ∧
    (Call.Trigger mockRepo
        (mockHook "refs/heads/dev" "feature" "main"
          [("source_branch", "feature"), ("target_branch", "main")])
        ∈ (HandleCreate mockUsers mockRepos mockCommits mockTriggerer
            (mockRequest [("commit", ["cce10d5c"]), ("branch", ["dev"]),
              ("source_branch", ["feature"]), ("target_branch", ["main"])])).calls ∧
      (mockHook "refs/heads/dev" "feature" "main"
          [("source_branch", "feature"), ("target_branch", "main")]).Source
        = (mockRequest [("commit", ["cce10d5c"]), ("branch", ["dev"]),
            ("source_branch", ["feature"]),
            ("target_branch", ["main"])]).FormValue "source_branch" ∧
      (mockHook "refs/heads/dev" "feature" "main"
          [("source_branch", "feature"), ("target_branch", "main")]).Target
        = (mockRequest [("commit", ["cce10d5c"]), ("branch", ["dev"]),
            ("source_branch", ["feature"]),
            ("target_branch", ["main"])]).FormValue "target_branch") :=
  ⟨⟨by decide,
    (C10_branch_chain mockUsers mockRepos mockCommits mockTriggerer
      (mockRequest [("commit", ["cce10d5c"]), ("branch", ["dev"])]) mockRepo
      (mockHook "refs/heads/dev" "dev" "dev" []) (by decide)).1
      (by decide) (by decide) (by decide) (by decide)⟩,
   ⟨by decide,
    (C10_branch_chain mockUsers mockRepos mockCommits mockTriggerer
      (mockRequest [("commit", ["cce10d5c"]), ("branch", ["dev"]),
        ("source_branch", ["feature"]), ("target_branch", ["main"])]) mockRepo
      (mockHook "refs/heads/dev" "feature" "main"
        [("source_branch", "feature"), ("target_branch", "main")]) (by decide)).2.1
      (by decide),
    (C10_branch_chain mockUsers mockRepos mockCommits mockTriggerer
      (mockRequest [("commit", ["cce10d5c"]), ("branch", ["dev"]),
        ("source_branch", ["feature"]), ("target_branch", ["main"])]) mockRepo
      (mockHook "refs/heads/dev" "feature" "main"
        [("source_branch", "feature"), ("target_branch", "main")]) (by decide)).2.2
      (by decide)⟩⟩

/-! ## Reference pass-through and independence of the caller -/

/-- The commit lookups of a run that found the repository and its owner. -/
theorem filter_commit_lookups {users : UserStore} {repos : RepositoryStore}
    {commits : CommitService} {triggerer : Triggerer} {r : Request}
    {repo : Repository} {owner : User}
    (hrepo : repoResult repos r = .ok repo)
        (howner : users.Find r.Context repo.UserID = .ok owner) :
    (HandleCreate users repos commits triggerer r).calls.filter Call.isCommitLookup
      = [commitCall r repo owner] := by
  have hone : List.filter Call.isCommitLookup [commitCall r repo owner]
      = [commitCall r repo owner] := by
    rw [List.filter_cons_of_pos (commitCall_isCommitLookup r repo owner)]
    rfl
  cases hcommit : commitResult commits r repo owner with
  | error err =>
    rw [run_commit_error hrepo howner hcommit]
    exact hone
  | ok commit =>
    cases htrigger : triggerOf r with
    | none =>
      rw [run_panic hrepo howner hcommit htrigger]
      exact hone
    | some trigger =>
      rw [run_trigger hrepo howner hcommit htrigger]
      show List.filter Call.isCommitLookup ([repoCall r, Call.UsersFind repo.UserID] ++
        ([commitCall r repo owner] ++ [Call.Trigger repo (hookOf r repo commit trigger)])) = _
      rw [List.filter_append, List.filter_append, hone]
      rfl

/-- A name that begins with `refs/` is not empty. -/
theorem ne_empty_of_hasPrefix_refs {s : String} (h : HasPrefix s "refs/" = true) :
    s ≠ "" := by
  intro hs
  rw [hs] at h
  exact absurd h (by decide)

/-- C11: when the `ref` parameter begins with `refs/`, the Event Record handed to the
scheduler has Ref equal to the supplied ref, whatever `branch` and the default branch
of the repository are; and when `commit` is empty, the one commit lookup is
`commits.FindRef` with that same ref. -/
theorem C11_qualified_ref_unchanged (users : UserStore) (repos : RepositoryStore)
    (commits : CommitService) (triggerer : Triggerer) (r : Request)
    (hqualified : HasPrefix (r.FormValue "ref") "refs/" = true) :
    (∀ repo hook, Call.Trigger repo hook
        ∈ (HandleCreate users repos commits triggerer r).calls →
      hook.Ref = r.FormValue "ref") ∧
    (∀ repo owner, repos.FindName r.Context (r.URLParam "owner") (r.URLParam "name") = .ok repo →
      users.Find r.Context repo.UserID = .ok owner → r.FormValue "commit" = "" →
      (HandleCreate users repos commits triggerer r).calls.filter Call.isCommitLookup
        = [Call.CommitsFindRef owner repo.Slug (r.FormValue "ref")]) := by
  have href : r.FormValue "ref" ≠ "" := ne_empty_of_hasPrefix_refs hqualified
  constructor
  · intro repo hook hcall
    obtain ⟨owner, commit, trigger, -, -, -, -, hh⟩ := trigger_call_inv hcall
    subst hh
    simp only [hookOf, refOf, href, if_false]
  · intro repo owner hrepo howner hsha
    rw [filter_commit_lookups hrepo howner]
    simp only [commitCall, refOf, hsha, href, ne_eq, not_true_eq_false, if_false]

/-- C11 at a request that names a commit and the tag reference `refs/tags/v1.0` next
to the branch `dev`, and at a request that names the reference `refs/heads/master`
next to the branch `dev`. -/
theorem C11_qualified_ref_unchanged_witness :
    (HasPrefix ((mockRequest [("commit", ["cce10d5c"]), ("branch", ["dev"]),
          ("ref", ["refs/tags/v1.0"])]).FormValue "ref") "refs/" = true ∧
      Call.Trigger mockRepo (mockHook "refs/tags/v1.0" "dev" "dev" [("ref", "refs/tags/v1.0")])
        ∈ (HandleCreate mockUsers mockRepos mockCommits mockTriggerer
            (mockRequest [("commit", ["cce10d5c"]), ("branch", ["dev"]),
              ("ref", ["refs/tags/v1.0"])])).calls ∧
      (mockHook "refs/tags/v1.0" "dev" "dev" [("ref", "refs/tags/v1.0")]).Ref
        = (mockRequest [("commit", ["cce10d5c"]), ("branch", ["dev"]),
            ("ref", ["refs/tags/v1.0"])]).FormValue "ref") ∧
    (HasPrefix ((mockRequest [("branch", ["dev"]),
          ("ref", ["refs/heads/master"])]).FormValue "ref") "refs/" = true ∧
      (HandleCreate mockUsers mockRepos mockCommits mockTriggerer
          (mockRequest [("branch", ["dev"]),
            ("ref", ["refs/heads/master"])])).calls.filter Call.isCommitLookup
        = [Call.CommitsFindRef mockUser mockRepo.Slug
            ((mockRequest [("branch", ["dev"]),
              ("ref", ["refs/heads/master"])]).FormValue "ref")]) :=
  ⟨⟨by decide, by decide,
    (C11_qualified_ref_unchanged mockUsers mockRepos mockCommits mockTriggerer
      (mockRequest [("commit", ["cce10d5c"]), ("branch", ["dev"]),
        ("ref", ["refs/tags/v1.0"])]) (by decide)).1 mockRepo _ (by decide)⟩,
   ⟨by decide,
    (C11_qualified_ref_unchanged mockUsers mockRepos mockCommits mockTriggerer
      (mockRequest [("branch", ["dev"]), ("ref", ["refs/heads/master"])])
      (by decide)).2 mockRepo mockUser rfl rfl (by decide)⟩⟩

/-- Two requests that differ at most in the user attached, with a `trigger` parameter
that is not empty, and lookups that answer the same in the two contexts: the two runs
make the same calls and build the same Event Record, and are equal when the scheduler
answers the same too. -/
theorem run_congr_context (users : UserStore) (repos : RepositoryStore)
    (commits : CommitService) (triggerer : Triggerer) (r1 r2 : Request)
    (hparams : r2.URLParams = r1.URLParams) (hform : r2.PostForm = r1.PostForm)
    (hquery : r2.Query = r1.Query) (hmulti : r2.MultipartForm = r1.MultipartForm)
    (htrigger : r1.FormValue "trigger" ≠ "")
    (hrepos : repos.FindName r2.Context = repos.FindName r1.Context)
    (husers : users.Find r2.Context = users.Find r1.Context)
    (hfind : commits.Find r2.Context = commits.Find r1.Context)
    (hfindref : commits.FindRef r2.Context = commits.FindRef r1.Context) :
    (HandleCreate users repos commits triggerer r2).calls
      = (HandleCreate users repos commits triggerer r1).calls ∧
    (HandleCreate users repos commits triggerer r2).hook
      = (HandleCreate users repos commits triggerer r1).hook ∧
    (triggerer.Trigger r2.Context = triggerer.Trigger r1.Context →
      HandleCreate users repos commits triggerer r2
        = HandleCreate users repos commits triggerer r1) := by
  have hup : ∀ key, r2.URLParam key = r1.URLParam key := by
    intro key
    simp only [Request.URLParam, hparams]
  have hfv : ∀ key, r2.FormValue key = r1.FormValue key := by
    intro key
    simp only [Request.FormValue, hform, hquery, hmulti]
  have e1 : repoResult repos r2 = repoResult repos r1 := by
    simp only [repoResult, hup, hrepos]
  have ecall : repoCall r2 = repoCall r1 := by
    simp only [repoCall, hup]
  have e3 : ∀ repo owner, commitResult commits r2 repo owner
      = commitResult commits r1 repo owner := by
    intro repo owner
    simp only [commitResult, refOf, branchOf, hfv, hfind, hfindref]
  have ec : ∀ repo owner, commitCall r2 repo owner = commitCall r1 repo owner := by
    intro repo owner
    simp only [commitCall, refOf, branchOf, hfv]
  have eh : ∀ repo commit trigger, hookOf r2 repo commit trigger
      = hookOf r1 repo commit trigger := by
    intro repo commit trigger
    simp only [hookOf, refOf, branchOf, hfv, hquery]
  rcases run_cases users repos commits r1 with ⟨err, h1⟩ | ⟨repo, err, h1, h2⟩ |
    ⟨repo, owner, err, h1, h2, h3⟩ | ⟨repo, owner, commit, h1, h2, h3, h4⟩ |
    ⟨repo, owner, commit, trigger, h1, h2, h3, h4⟩
  · rw [run_repo_error h1, run_repo_error (e1.trans h1), ecall]
    exact ⟨rfl, rfl, fun _ => rfl⟩
  · have h2' : users.Find r2.Context repo.UserID = .error err := by
      rw [husers]
      exact h2
    rw [run_owner_error h1 h2, run_owner_error (e1.trans h1) h2', ecall]
    exact ⟨rfl, rfl, fun _ => rfl⟩
  · have h2' : users.Find r2.Context repo.UserID = .ok owner := by
      rw [husers]
      exact h2
    rw [run_commit_error h1 h2 h3,
      run_commit_error (e1.trans h1) h2' ((e3 repo owner).trans h3), ecall, ec]
    exact ⟨rfl, rfl, fun _ => rfl⟩
  · exfalso
    simp only [triggerOf, if_neg htrigger] at h4
    cases h4
  · have h2' : users.Find r2.Context repo.UserID = .ok owner := by
      rw [husers]
      exact h2
    have h4' : triggerOf r2 = some trigger := by
      have h5 := h4
      simp only [triggerOf, if_neg htrigger] at h5
      simp only [triggerOf, hfv, if_neg htrigger]
      exact h5
    rw [run_trigger h1 h2 h3 h4,
      run_trigger (e1.trans h1) h2' ((e3 repo owner).trans h3) h4', ecall, ec, eh]
    refine ⟨rfl, rfl, fun htrig => ?_⟩
    rw [htrig]

/-- C15 as stated fails. Two requests name the trigger `cron` and differ in the user
attached only. With a scheduler that accepts the events of a context with a user only,
the run of `mockUser` answers 200 and the run without a user answers 500; with a
commit service that finds nothing in a context without a user, the run of `mockUser`
builds an Event Record and the run without a user builds none and answers 404. -/
theorem C15_context_counterexample :
    ((anonymousRequest [("trigger", ["cron"])]).URLParams
        = (mockRequest [("trigger", ["cron"])]).URLParams ∧
      (anonymousRequest [("trigger", ["cron"])]).PostForm
        = (mockRequest [("trigger", ["cron"])]).PostForm ∧
      (anonymousRequest [("trigger", ["cron"])]).Query
        = (mockRequest [("trigger", ["cron"])]).Query ∧
      (anonymousRequest [("trigger", ["cron"])]).MultipartForm
        = (mockRequest [("trigger", ["cron"])]).MultipartForm ∧
      (mockRequest [("trigger", ["cron"])]).FormValue "trigger" = "cron") ∧
    ((HandleCreate mockUsers mockRepos mockCommits guardedTriggerer
          (mockRequest [("trigger", ["cron"])])).response
        = .JSON { ID := 1, Number := 1 } 200 ∧
      (HandleCreate mockUsers mockRepos mockCommits guardedTriggerer
          (anonymousRequest [("trigger", ["cron"])])).response
        = .InternalError "trigger: unauthorized") ∧
    ((HandleCreate mockUsers mockRepos guardedCommits mockTriggerer
          (mockRequest [("trigger", ["cron"])])).hook
        = some { mockHook "refs/heads/master" "master" "master" [("trigger", "cron")] with
            Trigger := "cron", Sender := "cron" } ∧
      (HandleCreate mockUsers mockRepos guardedCommits mockTriggerer
          (anonymousRequest [("trigger", ["cron"])])).hook = none ∧
      (HandleCreate mockUsers mockRepos guardedCommits mockTriggerer
          (anonymousRequest [("trigger", ["cron"])])).response = .NotFound "Not Found") :=
  ⟨⟨rfl, rfl, rfl, rfl, by decide⟩, ⟨by decide, by decide⟩,
   ⟨by decide, by decide, by decide⟩⟩

/-- C15, amended: with a `trigger` parameter that is not empty, the Event Record
handed to the scheduler has Trigger and Sender equal to the supplied `trigger`,
whoever the caller is. For two requests that differ at most in the user attached to
them, if the lookups answer the same in the two contexts the two runs make the same
calls and build the same record, and if the scheduler answers the same too the two
runs are equal. In every record handed to the scheduler Sender equals Trigger. -/
theorem C15_trigger_independent_of_caller (users : UserStore) (repos : RepositoryStore)
    (commits : CommitService) (triggerer : Triggerer) (r1 r2 : Request)
    (hparams : r2.URLParams = r1.URLParams) (hform : r2.PostForm = r1.PostForm)
    (hquery : r2.Query = r1.Query) (hmulti : r2.MultipartForm = r1.MultipartForm) :
    (r1.FormValue "trigger" ≠ "" →
      (∀ repo hook, Call.Trigger repo hook
          ∈ (HandleCreate users repos commits triggerer r1).calls →
        hook.Trigger = r1.FormValue "trigger" ∧ hook.Sender = r1.FormValue "trigger") ∧
      (repos.FindName r2.Context = repos.FindName r1.Context →
        users.Find r2.Context = users.Find r1.Context →
        commits.Find r2.Context = commits.Find r1.Context →
        commits.FindRef r2.Context = commits.FindRef r1.Context →
        (HandleCreate users repos commits triggerer r2).calls
          = (HandleCreate users repos commits triggerer r1).calls ∧
        (HandleCreate users repos commits triggerer r2).hook
          = (HandleCreate users repos commits triggerer r1).hook ∧
        (triggerer.Trigger r2.Context = triggerer.Trigger r1.Context →
          HandleCreate users repos commits triggerer r2
            = HandleCreate users repos commits triggerer r1))) ∧
    (∀ repo hook, Call.Trigger repo hook
        ∈ (HandleCreate users repos commits triggerer r1).calls →
      hook.Sender = hook.Trigger) := by
  constructor
  · intro htrigger
    constructor
    · intro repo hook hcall
      obtain ⟨owner, commit, trigger, -, -, -, h4, hh⟩ := trigger_call_inv hcall
      subst hh
      simp only [triggerOf, if_neg htrigger] at h4
      injection h4 with h4
      exact ⟨h4.symm, h4.symm⟩
    · intro hrepos husers hfind hfindref
      exact run_congr_context users repos commits triggerer r1 r2 hparams hform hquery
        hmulti htrigger hrepos husers hfind hfindref
  · intro repo hook hcall
    obtain ⟨owner, commit, trigger, -, -, -, -, hh⟩ := trigger_call_inv hcall
    subst hh
    rfl

/-- C15, amended, at two requests that name the trigger `cron`, one by `mockUser` and
one with no user attached, with collaborators that do not read the context. -/
theorem C15_trigger_independent_of_caller_witness :
    ((anonymousRequest [("trigger", ["cron"])]).URLParams
        = (mockRequest [("trigger", ["cron"])]).URLParams ∧
      (anonymousRequest [("trigger", ["cron"])]).PostForm
        = (mockRequest [("trigger", ["cron"])]).PostForm ∧
      (anonymousRequest [("trigger", ["cron"])]).Query
        = (mockRequest [("trigger", ["cron"])]).Query ∧
      (anonymousRequest [("trigger", ["cron"])]).MultipartForm
        = (mockRequest [("trigger", ["cron"])]).MultipartForm ∧
      (mockRequest [("trigger", ["cron"])]).FormValue "trigger" ≠ "") ∧
    HandleCreate mockUsers mockRepos mockCommits mockTriggerer
        (anonymousRequest [("trigger", ["cron"])])
      = HandleCreate mockUsers mockRepos mockCommits mockTriggerer
        (mockRequest [("trigger", ["cron"])]) ∧
    (Call.Trigger mockRepo
        { mockHook "refs/heads/master" "master" "master" [("trigger", "cron")] with
          Trigger := "cron", Sender := "cron" }
      ∈ (HandleCreate mockUsers mockRepos mockCommits mockTriggerer
          (mockRequest [("trigger", ["cron"])])).calls ∧
      ({ mockHook "refs/heads/master" "master" "master" [("trigger", "cron")] with
          Trigger := "cron", Sender := "cron" } : Hook).Trigger
        = (mockRequest [("trigger", ["cron"])]).FormValue "trigger" ∧
      ({ mockHook "refs/heads/master" "master" "master" [("trigger", "cron")] with
          Trigger := "cron", Sender := "cron" } : Hook).Sender
        = ({ mockHook "refs/heads/master" "master" "master" [("trigger", "cron")] with
          Trigger := "cron", Sender := "cron" } : Hook).Trigger) :=
  ⟨⟨rfl, rfl, rfl, rfl, by decide⟩,
   (((C15_trigger_independent_of_caller mockUsers mockRepos mockCommits mockTriggerer
      (mockRequest [("trigger", ["cron"])]) (anonymousRequest [("trigger", ["cron"])])
      rfl rfl rfl rfl).1 (by decide)).2 rfl rfl rfl rfl).2.2 rfl,
   by decide,
   (((C15_trigger_independent_of_caller mockUsers mockRepos mockCommits mockTriggerer
      (mockRequest [("trigger", ["cron"])]) (anonymousRequest [("trigger", ["cron"])])
      rfl rfl rfl rfl).1 (by decide)).1 mockRepo _ (by decide)).1,
   (C15_trigger_independent_of_caller mockUsers mockRepos mockCommits mockTriggerer
      (mockRequest [("trigger", ["cron"])]) (anonymousRequest [("trigger", ["cron"])])
      rfl rfl rfl rfl).2 mockRepo _ (by decide)⟩

/-- C16: Ref, Source and Target of the Event Record depend on `branch`,
`source_branch`, `target_branch`, `ref` and the default branch of the repository
only. Two runs, with any collaborators, whose requests agree on the four parameters
and whose repositories have the same default branch hand over records with equal
Ref, Source and Target, whatever the `commit` parameter and the resolved commits
are; with `branch` and `ref` empty the Ref is the expansion of the default branch
also when a sha is given. -/
theorem C16_refs_independent_of_commit
    (users1 : UserStore) (repos1 : RepositoryStore) (commits1 : CommitService)
    (triggerer1 : Triggerer) (r1 : Request) (repo1 : Repository) (hook1 : Hook)
    (users2 : UserStore) (repos2 : RepositoryStore) (commits2 : CommitService)
    (triggerer2 : Triggerer) (r2 : Request) (repo2 : Repository) (hook2 : Hook)
    (hcall1 : Call.Trigger repo1 hook1
      ∈ (HandleCreate users1 repos1 commits1 triggerer1 r1).calls)
    (hcall2 : Call.Trigger repo2 hook2
      ∈ (HandleCreate users2 repos2 commits2 triggerer2 r2).calls)
    (hbranch : r1.FormValue "branch" = r2.FormValue "branch")
    (hsource : r1.FormValue "source_branch" = r2.FormValue "source_branch")
    (htarget : r1.FormValue "target_branch" = r2.FormValue "target_branch")
    (href : r1.FormValue "ref" = r2.FormValue "ref")
    (hdefault : repo1.Branch = repo2.Branch) :
    hook1.Ref = hook2.Ref ∧ hook1.Source = hook2.Source ∧ hook1.Target = hook2.Target ∧
    (r1.FormValue "branch" = "" → r1.FormValue "ref" = "" →
      hook1.Ref = ExpandRef repo1.Branch "refs/heads") := by
  obtain ⟨owner1, commit1, trigger1, -, -, -, -, hh1⟩ := trigger_call_inv hcall1
  obtain ⟨owner2, commit2, trigger2, -, -, -, -, hh2⟩ := trigger_call_inv hcall2
  subst hh1 hh2
  refine ⟨?_, ?_, ?_, ?_⟩
  · simp only [hookOf, refOf, branchOf, hbranch, href, hdefault]
  · simp only [hookOf, branchOf, hbranch, hsource, hdefault]
  · simp only [hookOf, branchOf, hbranch, htarget, hdefault]
  · intro hb hr
    simp only [hookOf, refOf, branchOf, hb, hr, if_true]

/-- C16 at two requests for the fixture repository with no branch and no ref: one
resolves the head of `master` by reference, one names a commit of the branch `dev`
by its id; both records carry the reference of `master`. -/
theorem C16_refs_independent_of_commit_witness :
    (Call.Trigger mockRepo (mockHook "refs/heads/master" "master" "master" [])
        ∈ (HandleCreate mockUsers mockRepos mockCommits mockTriggerer
            (mockRequest [])).calls ∧
      Call.Trigger mockRepo (devHook "refs/heads/master" "master" "master" [])
        ∈ (HandleCreate mockUsers mockRepos devCommits mockTriggerer
            (mockRequest [("commit", ["7fd1a60b"])])).calls ∧
      (mockRequest []).FormValue "branch"
        = (mockRequest [("commit", ["7fd1a60b"])]).FormValue "branch" ∧
      (mockRequest []).FormValue "source_branch"
        = (mockRequest [("commit", ["7fd1a60b"])]).FormValue "source_branch" ∧
      (mockRequest []).FormValue "target_branch"
        = (mockRequest [("commit", ["7fd1a60b"])]).FormValue "target_branch" ∧
      (mockRequest []).FormValue "ref"
        = (mockRequest [("commit", ["7fd1a60b"])]).FormValue "ref" ∧
      mockRepo.Branch = mockRepo.Branch ∧
      (mockHook "refs/heads/master" "master" "master" []).After
        ≠ (devHook "refs/heads/master" "master" "master" []).After) ∧
    ((mockHook "refs/heads/master" "master" "master" []).Ref
        = (devHook "refs/heads/master" "master" "master" []).Ref ∧
      (mockHook "refs/heads/master" "master" "master" []).Source
        = (devHook "refs/heads/master" "master" "master" []).Source ∧
      (mockHook "refs/heads/master" "master" "master" []).Target
        = (devHook "refs/heads/master" "master" "master" []).Target ∧
      ((mockRequest []).FormValue "branch" = "" → (mockRequest []).FormValue "ref" = "" →
        (mockHook "refs/heads/master" "master" "master" []).Ref
          = ExpandRef mockRepo.Branch "refs/heads")) :=
  ⟨⟨by decide, by decide, by decide, by decide, by decide, by decide, rfl, by decide⟩,
   C16_refs_independent_of_commit
     mockUsers mockRepos mockCommits mockTriggerer (mockRequest []) mockRepo
     (mockHook "refs/heads/master" "master" "master" [])
     mockUsers mockRepos devCommits mockTriggerer (mockRequest [("commit", ["7fd1a60b"])])
     mockRepo (devHook "refs/heads/master" "master" "master" [])
     (by decide) (by decide) (by decide) (by decide) (by decide) (by decide) rfl⟩

/-- C17: a non-empty `ref` parameter is taken as it is, qualified or not. The Event
Record handed to the scheduler has Ref equal to it and, when `commit` is empty, the
one commit lookup is `commits.FindRef` with it. `scm.ExpandRef` is applied when
`ref` is empty, and then to the defaulted branch. -/
theorem C17_short_ref_not_expanded (users : UserStore) (repos : RepositoryStore)
    (commits : CommitService) (triggerer : Triggerer) (r : Request) :
    (r.FormValue "ref" ≠ "" →
      (∀ repo hook, Call.Trigger repo hook
          ∈ (HandleCreate users repos commits triggerer r).calls →
        hook.Ref = r.FormValue "ref") ∧
      (∀ repo owner, repos.FindName r.Context (r.URLParam "owner") (r.URLParam "name") = .ok repo →
        users.Find r.Context repo.UserID = .ok owner → r.FormValue "commit" = "" →
        (HandleCreate users repos commits triggerer r).calls.filter Call.isCommitLookup
          = [Call.CommitsFindRef owner repo.Slug (r.FormValue "ref")])) ∧
    (r.FormValue "ref" = "" →
      ∀ repo hook, Call.Trigger repo hook
          ∈ (HandleCreate users repos commits triggerer r).calls →
        hook.Ref = ExpandRef (if r.FormValue "branch" = "" then repo.Branch
          else r.FormValue "branch") "refs/heads") := by
  refine ⟨fun href => ⟨?_, ?_⟩, ?_⟩
  · intro repo hook hcall
    obtain ⟨owner, commit, trigger, -, -, -, -, hh⟩ := trigger_call_inv hcall
    subst hh
    simp only [hookOf, refOf, href, if_false]
  · intro repo owner hrepo howner hsha
    rw [filter_commit_lookups hrepo howner]
    simp only [commitCall, refOf, hsha, href, ne_eq, not_true_eq_false, if_false]
  · intro href repo hook hcall
    obtain ⟨owner, commit, trigger, -, -, -, -, hh⟩ := trigger_call_inv hcall
    subst hh
    simp only [hookOf, refOf, branchOf, href, if_true]

/-- C17 at a request that names a commit and the short reference `master`, and at a
request that names the short reference `master` only. -/
theorem C17_short_ref_not_expanded_witness :
    ((mockRequest [("commit", ["cce10d5c"]), ("ref", ["master"])]).FormValue "ref" ≠ "" ∧
      Call.Trigger mockRepo (mockHook "master" "master" "master" [("ref", "master")])
        ∈ (HandleCreate mockUsers mockRepos mockCommits mockTriggerer
            (mockRequest [("commit", ["cce10d5c"]), ("ref", ["master"])])).calls ∧
      (mockHook "master" "master" "master" [("ref", "master")]).Ref
        = (mockRequest [("commit", ["cce10d5c"]), ("ref", ["master"])]).FormValue "ref" ∧
      (mockRequest [("commit", ["cce10d5c"]), ("ref", ["master"])]).FormValue "ref"
        = "master") ∧
    ((mockRequest [("ref", ["master"])]).FormValue "ref" ≠ "" ∧
      (HandleCreate mockUsers mockRepos mockCommits mockTriggerer
          (mockRequest [("ref", ["master"])])).calls.filter Call.isCommitLookup
        = [Call.CommitsFindRef mockUser mockRepo.Slug
            ((mockRequest [("ref", ["master"])]).FormValue "ref")] ∧
      (mockRequest [("ref", ["master"])]).FormValue "ref" = "master") :=
  ⟨⟨by decide, by decide,
    ((C17_short_ref_not_expanded mockUsers mockRepos mockCommits mockTriggerer
      (mockRequest [("commit", ["cce10d5c"]), ("ref", ["master"])])).1 (by decide)).1
      mockRepo _ (by decide),
    by decide⟩,
   ⟨by decide,
    ((C17_short_ref_not_expanded mockUsers mockRepos mockCommits mockTriggerer
      (mockRequest [("ref", ["master"])])).1 (by decide)).2 mockRepo mockUser rfl rfl
      (by decide),
    by decide⟩⟩

/-! ## Control parameters in the build parameters -/

/-- The form value of a key that an urlencoded body does not carry is the first value
that the query gives it. -/
theorem formValue_of_query {r : Request} {key v : String} {vs : List String}
    (hquery : r.Query.lookup key = some (v :: vs)) (hform : Values.index r.PostForm key = []) :
    r.FormValue key = v := by
  unfold Request.FormValue
  rw [hform]
  simp only [Values.index, hquery, Option.getD_some, List.nil_append, List.cons_append]

/-- C18 as stated fails. A query that carries `event` with the one value that is the
empty string leaves Event at its default `custom`, while Params records the empty
string; and when the body carries `event` too, Event is the value of the body while
Params records the value of the query. -/
theorem C18_control_parameter_counterexample :
    (List.lookup "event" (mockRequest [("event", [""])]).Query = some [""] ∧
      Call.Trigger mockRepo (mockHook "refs/heads/master" "master" "master" [("event", "")])
        ∈ (HandleCreate mockUsers mockRepos mockCommits mockTriggerer
            (mockRequest [("event", [""])])).calls ∧
      (mockHook "refs/heads/master" "master" "master" [("event", "")]).Event = "custom" ∧
      StringMap.index
        (mockHook "refs/heads/master" "master" "master" [("event", "")]).Params "event"
        = some "") ∧
    (List.lookup "event" (mockFormRequest [("event", ["push"])] [("event", ["tag"])]).Query
        = some ["tag"] ∧
      Call.Trigger mockRepo
          { mockHook "refs/heads/master" "master" "master" [("event", "tag")] with
            Event := "push" }
        ∈ (HandleCreate mockUsers mockRepos mockCommits mockTriggerer
            (mockFormRequest [("event", ["push"])] [("event", ["tag"])])).calls ∧
      ({ mockHook "refs/heads/master" "master" "master" [("event", "tag")] with
          Event := "push" } : Hook).Event = "push" ∧
      StringMap.index
        ({ mockHook "refs/heads/master" "master" "master" [("event", "tag")] with
          Event := "push" } : Hook).Params "event" = some "tag") :=
  ⟨⟨by decide, by decide, by decide, by decide⟩,
   ⟨by decide, by decide, by decide, by decide⟩⟩

/-- C18, amended: for a query whose keys are pairwise distinct, every key other than
`access_token`, `commit` and `branch` that has at least one value is copied into the
Params of the Event Record handed to the scheduler with its first value. Each of
`before`, `after`, `source_branch`, `target_branch`, `ref`, `event`, `trigger` and
`link` whose first value in the query is not empty, and which an urlencoded body does
not carry, populates its field of the record with that value; `title`, which an
urlencoded body does not carry, populates Title with its first value, empty or not. -/
theorem C18_control_parameters (users : UserStore) (repos : RepositoryStore)
    (commits : CommitService) (triggerer : Triggerer) (r : Request)
    (repo : Repository) (hook : Hook)
    (hwf : Values.WellFormed r.Query)
    (hcall : Call.Trigger repo hook ∈ (HandleCreate users repos commits triggerer r).calls) :
    (∀ k v vs, ¬ (k = "access_token" ∨ k = "commit" ∨ k = "branch") →
      r.Query.lookup k = some (v :: vs) → StringMap.index hook.Params k = some v) ∧
    (∀ k v vs, r.Query.lookup k = some (v :: vs) → v ≠ "" →
      Values.index r.PostForm k = [] →
      (k = "before" → hook.Before = v) ∧ (k = "after" → hook.After = v) ∧
      (k = "source_branch" → hook.Source = v) ∧ (k = "target_branch" → hook.Target = v) ∧
      (k = "ref" → hook.Ref = v) ∧ (k = "event" → hook.Event = v) ∧
      (k = "trigger" → hook.Trigger = v) ∧ (k = "link" → hook.Link = v)) ∧
    (∀ v vs, r.Query.lookup "title" = some (v :: vs) →
      Values.index r.PostForm "title" = [] → hook.Title = v) := by
  obtain ⟨owner, commit, trigger, -, -, -, h4, hh⟩ := trigger_call_inv hcall
  subst hh
  refine ⟨?_, ?_, ?_⟩
  · intro k v vs hk hq
    show StringMap.index (collectParams r.Query) k = _
    rw [collectParams_eq, index_foldl_paramsStep _ _ _ hwf, if_neg hk, hq]
  · intro k v vs hq hv hform
    have hval : r.FormValue k = v := formValue_of_query hq hform
    refine ⟨?_, ?_, ?_, ?_, ?_, ?_, ?_, ?_⟩ <;> intro hk <;> subst hk
    · simp only [hookOf, hval, if_neg hv]
    · simp only [hookOf, hval, if_neg hv]
    · simp only [hookOf, hval, if_neg hv]
    · simp only [hookOf, hval, if_neg hv]
    · simp only [hookOf, refOf, hval, if_neg hv]
    · simp only [hookOf, hval, if_neg hv]
    · simp only [triggerOf, hval, if_neg hv] at h4
      injection h4 with h4
      exact h4.symm
    · simp only [hookOf, hval, if_neg hv]
  · intro v vs hq hform
    have hval : r.FormValue "title" = v := formValue_of_query hq hform
    simp only [hookOf, hval]

/-- C18, amended, at a request whose query names the event `push` and a title that
is the empty string, next to a commit. -/
theorem C18_control_parameters_witness :
    (Values.WellFormed (mockRequest [("commit", ["cce10d5c"]), ("event", ["push"]),
        ("title", [""])]).Query ∧
      Call.Trigger mockRepo
          { mockHook "refs/heads/master" "master" "master"
              [("event", "push"), ("title", "")] with Event := "push" }
        ∈ (HandleCreate mockUsers mockRepos mockCommits mockTriggerer
            (mockRequest [("commit", ["cce10d5c"]), ("event", ["push"]),
              ("title", [""])])).calls) ∧
    (StringMap.index
        ({ mockHook "refs/heads/master" "master" "master"
            [("event", "push"), ("title", "")] with Event := "push" } : Hook).Params
        "event" = some "push" ∧
      ({ mockHook "refs/heads/master" "master" "master"
          [("event", "push"), ("title", "")] with Event := "push" } : Hook).Event = "push" ∧
      ({ mockHook "refs/heads/master" "master" "master"
          [("event", "push"), ("title", "")] with Event := "push" } : Hook).Title = "") :=
  ⟨⟨by decide, by decide⟩,
   (C18_control_parameters mockUsers mockRepos mockCommits mockTriggerer
      (mockRequest [("commit", ["cce10d5c"]), ("event", ["push"]), ("title", [""])])
      mockRepo _ (by decide) (by decide)).1 "event" "push" [] (by decide) rfl,
   ((C18_control_parameters mockUsers mockRepos mockCommits mockTriggerer
      (mockRequest [("commit", ["cce10d5c"]), ("event", ["push"]), ("title", [""])])
      mockRepo _ (by decide) (by decide)).2.1 "event" "push" [] rfl (by decide)
      rfl).2.2.2.2.2.1 rfl,
   (C18_control_parameters mockUsers mockRepos mockCommits mockTriggerer
      (mockRequest [("commit", ["cce10d5c"]), ("event", ["push"]), ("title", [""])])
      mockRepo _ (by decide) (by decide)).2.2 "" [] rfl rfl⟩

end Drone
